import Mathlib

/- Verification development for the ansi_out markup engine
(src/ansi_print.c): a shallow embedding of the markup tokenizer, the
tag-state emitter, the gradient/rainbow interpolators, the unicode escape
parser and the bar composer, with theorems checking the specification's
claims against the embedded code.

Modelling conventions:
  * C byte strings are lists of byte values (`List Nat`, each < 256).
  * C `int` arithmetic is `Int`, with `Int.tdiv` for C's truncating `/`.
  * C `double` arguments of the bar composer are exact rationals; the
    clamping/counting properties proved about them do not depend on
    floating-point rounding.
  * The `const char *` code references stored in the tag state are values
    of an explicit reference type (`FgRef`/`BgRef`): `.attr i` is a pointer
    to the fg/bg literal of `ATTRS[i]` (all those literals are pairwise
    distinct, so C pointer equality coincides with index equality), and
    `.num c` is a pointer to the `m_num_fg`/`m_num_bg` scratch buffer whose
    current contents encode color `c`.
  * Process-wide configuration read during one emission call
    (`m_color_enabled`, `m_default_fg`, `m_default_bg`) is a `Config`
    value; the mutable per-call state (`m_tag_state`, rainbow counters,
    `m_gradient`) plus the bytes pushed to the output sink form
    `EmitState`.  (`m_gradient.start/end` survive across calls in C but are
    dead state: they are only read under `STYLE_GRADIENT`, which a fresh
    call can only set via `parse_gradient_tag`, which overwrites them.)
  * Recursions over the input are fueled by the input length; every token
    consumes at least one byte, so this fuel is sufficient, and fueled
    structural recursion keeps all definitions kernel-executable. -/

namespace AnsiOut

/-- Byte values of an ASCII string literal. -/
def b (s : String) : List Nat := s.toList.map Char.toNat

/-- Escape-sequence bytes: ESC (0x1b) followed by ASCII text. -/
def esc (s : String) : List Nat := 27 :: b s

/-- The RESET escape `\x1b[0m`. -/
def RESET : List Nat := esc "[0m"

/-- An RGB triple from the attribute table. -/
structure RGB where
  r : Nat
  g : Nat
  b : Nat
deriving DecidableEq

/-- One row of the static `ATTRS` color/style table. -/
structure AttrEntry where
  name : List Nat
  fg : Option (List Nat)
  bg : Option (List Nat)
  style : Nat
  rgb : RGB
deriving DecidableEq

/-- One row of the static `EMOJIS` shortcode table. -/
structure EmojiEntry where
  name : List Nat
  utf8 : List Nat
deriving DecidableEq

/-- C `isspace` on the ASCII bytes the engine can see. -/
def isSpaceB (c : Nat) : Bool :=
  c == 32 || c == 9 || c == 10 || c == 11 || c == 12 || c == 13

/-- Is a byte a UTF-8 continuation byte (0x80-0xBF)?  The tokenizer drains
these after a lead byte. -/
def isCont (c : Nat) : Bool := 128 ≤ c && c ≤ 191

/-- Index of the first occurrence of byte `c` (C `strchr`). -/
def idxOfByte (c : Nat) : List Nat → Option Nat
  | [] => none
  | x :: xs => if x = c then some 0 else (idxOfByte c xs).map (· + 1)

/-- Drop trailing bytes satisfying `f` (the `while (len && isspace(s[len-1]))
len--` pattern). -/
def trimTrail (f : Nat → Bool) (l : List Nat) : List Nat :=
  (l.reverse.dropWhile f).reverse
/-- The static attribute table ATTRS from ansi_print.c (all feature flags on,
as defaulted in ansi_print.h): name bytes, fg escape bytes, bg escape bytes,
style bit, RGB triple. -/
def ATTRS : List AttrEntry := [
  ⟨[98, 108, 97, 99, 107], some [27, 91, 51, 48, 109], some [27, 91, 52, 48, 109], 0, ⟨0, 0, 0⟩⟩,
  ⟨[114, 101, 100], some [27, 91, 51, 49, 109], some [27, 91, 52, 49, 109], 0, ⟨255, 0, 0⟩⟩,
  ⟨[103, 114, 101, 101, 110], some [27, 91, 51, 50, 109], some [27, 91, 52, 50, 109], 0, ⟨0, 205, 0⟩⟩,
  ⟨[121, 101, 108, 108, 111, 119], some [27, 91, 51, 51, 109], some [27, 91, 52, 51, 109], 0, ⟨255, 255, 0⟩⟩,
  ⟨[98, 108, 117, 101], some [27, 91, 51, 52, 109], some [27, 91, 52, 52, 109], 0, ⟨0, 0, 255⟩⟩,
  ⟨[109, 97, 103, 101, 110, 116, 97], some [27, 91, 51, 53, 109], some [27, 91, 52, 53, 109], 0, ⟨255, 0, 255⟩⟩,
  ⟨[99, 121, 97, 110], some [27, 91, 51, 54, 109], some [27, 91, 52, 54, 109], 0, ⟨0, 255, 255⟩⟩,
  ⟨[119, 104, 105, 116, 101], some [27, 91, 51, 55, 109], some [27, 91, 52, 55, 109], 0, ⟨255, 255, 255⟩⟩,
  ⟨[111, 114, 97, 110, 103, 101], some [27, 91, 51, 56, 59, 53, 59, 50, 48, 56, 109], some [27, 91, 52, 56, 59, 53, 59, 50, 48, 56, 109], 0, ⟨255, 135, 0⟩⟩,
  ⟨[112, 105, 110, 107], some [27, 91, 51, 56, 59, 53, 59, 50, 49, 51, 109], some [27, 91, 52, 56, 59, 53, 59, 50, 49, 51, 109], 0, ⟨255, 135, 255⟩⟩,
  ⟨[112, 117, 114, 112, 108, 101], some [27, 91, 51, 56, 59, 53, 59, 57, 51, 109], some [27, 91, 52, 56, 59, 53, 59, 57, 51, 109], 0, ⟨135, 0, 255⟩⟩,
  ⟨[98, 114, 111, 119, 110], some [27, 91, 51, 56, 59, 53, 59, 57, 52, 109], some [27, 91, 52, 56, 59, 53, 59, 57, 52, 109], 0, ⟨135, 95, 0⟩⟩,
  ⟨[116, 101, 97, 108], some [27, 91, 51, 56, 59, 53, 59, 51, 55, 109], some [27, 91, 52, 56, 59, 53, 59, 51, 55, 109], 0, ⟨0, 175, 175⟩⟩,
  ⟨[108, 105, 109, 101], some [27, 91, 51, 56, 59, 53, 59, 49, 49, 56, 109], some [27, 91, 52, 56, 59, 53, 59, 49, 49, 56, 109], 0, ⟨135, 255, 0⟩⟩,
  ⟨[110, 97, 118, 121], some [27, 91, 51, 56, 59, 53, 59, 49, 56, 109], some [27, 91, 52, 56, 59, 53, 59, 49, 56, 109], 0, ⟨0, 0, 135⟩⟩,
  ⟨[111, 108, 105, 118, 101], some [27, 91, 51, 56, 59, 53, 59, 49, 48, 48, 109], some [27, 91, 52, 56, 59, 53, 59, 49, 48, 48, 109], 0, ⟨135, 135, 0⟩⟩,
  ⟨[109, 97, 114, 111, 111, 110], some [27, 91, 51, 56, 59, 53, 59, 53, 50, 109], some [27, 91, 52, 56, 59, 53, 59, 53, 50, 109], 0, ⟨95, 0, 0⟩⟩,
  ⟨[97, 113, 117, 97], some [27, 91, 51, 56, 59, 53, 59, 53, 49, 109], some [27, 91, 52, 56, 59, 53, 59, 53, 49, 109], 0, ⟨0, 255, 255⟩⟩,
  ⟨[115, 105, 108, 118, 101, 114], some [27, 91, 51, 56, 59, 53, 59, 50, 53, 48, 109], some [27, 91, 52, 56, 59, 53, 59, 50, 53, 48, 109], 0, ⟨188, 188, 188⟩⟩,
  ⟨[103, 114, 97, 121], some [27, 91, 51, 56, 59, 53, 59, 50, 52, 52, 109], some [27, 91, 52, 56, 59, 53, 59, 50, 52, 52, 109], 0, ⟨128, 128, 128⟩⟩,
  ⟨[98, 114, 105, 103, 104, 116, 95, 98, 108, 97, 99, 107], some [27, 91, 57, 48, 109], some [27, 91, 49, 48, 48, 109], 0, ⟨128, 128, 128⟩⟩,
  ⟨[98, 114, 105, 103, 104, 116, 95, 114, 101, 100], some [27, 91, 57, 49, 109], some [27, 91, 49, 48, 49, 109], 0, ⟨255, 85, 85⟩⟩,
  ⟨[98, 114, 105, 103, 104, 116, 95, 103, 114, 101, 101, 110], some [27, 91, 57, 50, 109], some [27, 91, 49, 48, 50, 109], 0, ⟨85, 255, 85⟩⟩,
  ⟨[98, 114, 105, 103, 104, 116, 95, 121, 101, 108, 108, 111, 119], some [27, 91, 57, 51, 109], some [27, 91, 49, 48, 51, 109], 0, ⟨255, 255, 85⟩⟩,
  ⟨[98, 114, 105, 103, 104, 116, 95, 98, 108, 117, 101], some [27, 91, 57, 52, 109], some [27, 91, 49, 48, 52, 109], 0, ⟨85, 85, 255⟩⟩,
  ⟨[98, 114, 105, 103, 104, 116, 95, 109, 97, 103, 101, 110, 116, 97], some [27, 91, 57, 53, 109], some [27, 91, 49, 48, 53, 109], 0, ⟨255, 85, 255⟩⟩,
  ⟨[98, 114, 105, 103, 104, 116, 95, 99, 121, 97, 110], some [27, 91, 57, 54, 109], some [27, 91, 49, 48, 54, 109], 0, ⟨85, 255, 255⟩⟩,
  ⟨[98, 114, 105, 103, 104, 116, 95, 119, 104, 105, 116, 101], some [27, 91, 57, 55, 109], some [27, 91, 49, 48, 55, 109], 0, ⟨255, 255, 255⟩⟩,
  ⟨[98, 111, 108, 100], some [27, 91, 49, 109], none, 1, ⟨0, 0, 0⟩⟩,
  ⟨[100, 105, 109], some [27, 91, 50, 109], none, 2, ⟨0, 0, 0⟩⟩,
  ⟨[105, 116, 97, 108, 105, 99], some [27, 91, 51, 109], none, 4, ⟨0, 0, 0⟩⟩,
  ⟨[117, 110, 100, 101, 114, 108, 105, 110, 101], some [27, 91, 52, 109], none, 8, ⟨0, 0, 0⟩⟩,
  ⟨[105, 110, 118, 101, 114, 116], some [27, 91, 55, 109], none, 16, ⟨0, 0, 0⟩⟩,
  ⟨[115, 116, 114, 105, 107, 101, 116, 104, 114, 111, 117, 103, 104], some [27, 91, 57, 109], none, 32, ⟨0, 0, 0⟩⟩,
  ⟨[114, 97, 105, 110, 98, 111, 119], none, none, 64, ⟨0, 0, 0⟩⟩
]


/- The static emoji shortcode table from ansi_print.c (core + extended
sets, as defaulted): name bytes, UTF-8 bytes.  Declared in chunks purely to
keep elaboration cheap; `EMOJIS` below is their concatenation in source
order. -/

def emojisChunk0 : List EmojiEntry := [
  ⟨[99, 104, 101, 99, 107], [226, 156, 133]⟩,
  ⟨[99, 114, 111, 115, 115], [226, 157, 140]⟩,
  ⟨[119, 97, 114, 110, 105, 110, 103], [226, 154, 160]⟩,
  ⟨[105, 110, 102, 111], [226, 132, 185]⟩,
  ⟨[97, 114, 114, 111, 119], [226, 158, 161]⟩,
  ⟨[103, 101, 97, 114], [226, 154, 153]⟩,
  ⟨[99, 108, 111, 99, 107], [226, 143, 176]⟩,
  ⟨[104, 111, 117, 114, 103, 108, 97, 115, 115], [226, 140, 155]⟩,
  ⟨[116, 104, 117, 109, 98, 115, 95, 117, 112], [240, 159, 145, 141]⟩,
  ⟨[116, 104, 117, 109, 98, 115, 95, 100, 111, 119, 110], [240, 159, 145, 142]⟩,
  ⟨[115, 116, 97, 114], [226, 173, 144]⟩,
  ⟨[102, 105, 114, 101], [240, 159, 148, 165]⟩,
  ⟨[114, 111, 99, 107, 101, 116], [240, 159, 154, 128]⟩,
  ⟨[122, 97, 112], [226, 154, 161]⟩,
  ⟨[98, 117, 103], [240, 159, 144, 155]⟩,
  ⟨[119, 114, 101, 110, 99, 104], [240, 159, 148, 167]⟩,
  ⟨[98, 101, 108, 108], [240, 159, 148, 148]⟩,
  ⟨[115, 112, 97, 114, 107, 108, 101, 115], [226, 156, 168]⟩,
  ⟨[112, 97, 99, 107, 97, 103, 101], [240, 159, 147, 166]⟩,
  ⟨[108, 105, 110, 107], [240, 159, 148, 151]⟩,
  ⟨[115, 116, 111, 112], [240, 159, 155, 145]⟩,
  ⟨[115, 109, 105, 108, 101], [240, 159, 152, 138]⟩,
  ⟨[103, 114, 105, 110], [240, 159, 152, 129]⟩,
  ⟨[108, 97, 117, 103, 104], [240, 159, 152, 130]⟩,
  ⟨[119, 105, 110, 107], [240, 159, 152, 137]⟩,
  ⟨[104, 101, 97, 114, 116, 95, 101, 121, 101, 115], [240, 159, 152, 141]⟩,
  ⟨[99, 111, 111, 108], [240, 159, 152, 142]⟩
]

def emojisChunk1 : List EmojiEntry := [
  ⟨[116, 104, 105, 110, 107, 105, 110, 103], [240, 159, 164, 148]⟩,
  ⟨[115, 104, 117, 115, 104], [240, 159, 164, 171]⟩,
  ⟨[99, 114, 121], [240, 159, 152, 162]⟩,
  ⟨[115, 111, 98], [240, 159, 152, 173]⟩,
  ⟨[97, 110, 103, 114, 121], [240, 159, 152, 160]⟩,
  ⟨[115, 99, 114, 101, 97, 109], [240, 159, 152, 177]⟩,
  ⟨[115, 119, 101, 97, 116], [240, 159, 152, 147]⟩,
  ⟨[114, 101, 108, 105, 101, 118, 101, 100], [240, 159, 152, 140]⟩,
  ⟨[115, 108, 101, 101, 112, 105, 110, 103], [240, 159, 152, 180]⟩,
  ⟨[115, 107, 117, 108, 108], [240, 159, 146, 128]⟩,
  ⟨[119, 97, 118, 101], [240, 159, 145, 139]⟩,
  ⟨[99, 108, 97, 112], [240, 159, 145, 143]⟩,
  ⟨[112, 114, 97, 121], [240, 159, 153, 143]⟩,
  ⟨[109, 117, 115, 99, 108, 101], [240, 159, 146, 170]⟩,
  ⟨[111, 107, 95, 104, 97, 110, 100], [240, 159, 145, 140]⟩,
  ⟨[118, 105, 99, 116, 111, 114, 121], [226, 156, 140]⟩,
  ⟨[112, 111, 105, 110, 116, 95, 117, 112], [240, 159, 145, 134]⟩,
  ⟨[112, 111, 105, 110, 116, 95, 100, 111, 119, 110], [240, 159, 145, 135]⟩,
  ⟨[112, 111, 105, 110, 116, 95, 108, 101, 102, 116], [240, 159, 145, 136]⟩,
  ⟨[112, 111, 105, 110, 116, 95, 114, 105, 103, 104, 116], [240, 159, 145, 137]⟩,
  ⟨[114, 97, 105, 115, 101, 100, 95, 104, 97, 110, 100], [226, 156, 139]⟩,
  ⟨[112, 105, 110, 99, 104], [240, 159, 164, 143]⟩,
  ⟨[103, 114, 101, 101, 110, 95, 99, 104, 101, 99, 107], [226, 156, 133]⟩,
  ⟨[99, 104, 101, 99, 107, 95, 98, 111, 120], [226, 152, 145]⟩,
  ⟨[98, 97, 108, 108, 111, 116, 95, 120], [226, 156, 151]⟩,
  ⟨[104, 101, 97, 118, 121, 95, 120], [226, 156, 152]⟩,
  ⟨[99, 114, 111, 115, 115, 95, 98, 111, 120], [226, 157, 142]⟩
]

def emojisChunk2 : List EmojiEntry := [
  ⟨[104, 101, 97, 114, 116], [226, 157, 164]⟩,
  ⟨[98, 114, 111, 107, 101, 110, 95, 104, 101, 97, 114, 116], [240, 159, 146, 148]⟩,
  ⟨[113, 117, 101, 115, 116, 105, 111, 110], [226, 157, 147]⟩,
  ⟨[101, 120, 99, 108, 97, 109, 97, 116, 105, 111, 110], [226, 157, 151]⟩,
  ⟨[98, 97, 110, 103, 98, 97, 110, 103], [226, 128, 188]⟩,
  ⟨[112, 108, 117, 115], [226, 158, 149]⟩,
  ⟨[109, 105, 110, 117, 115], [226, 158, 150]⟩,
  ⟨[109, 117, 108, 116, 105, 112, 108, 121], [226, 156, 150]⟩,
  ⟨[100, 105, 118, 105, 100, 101], [226, 158, 151]⟩,
  ⟨[105, 110, 102, 105, 110, 105, 116, 121], [226, 153, 190]⟩,
  ⟨[114, 101, 99, 121, 99, 108, 101], [226, 153, 187]⟩,
  ⟨[99, 111, 112, 121, 114, 105, 103, 104, 116], [194, 169]⟩,
  ⟨[97, 114, 114, 111, 119, 95, 117, 112], [226, 172, 134]⟩,
  ⟨[97, 114, 114, 111, 119, 95, 100, 111, 119, 110], [226, 172, 135]⟩,
  ⟨[97, 114, 114, 111, 119, 95, 108, 101, 102, 116], [226, 172, 133]⟩,
  ⟨[97, 114, 114, 111, 119, 95, 114, 105, 103, 104, 116], [226, 158, 161]⟩,
  ⟨[97, 114, 114, 111, 119, 95, 117, 112, 95, 100, 111, 119, 110], [226, 134, 149]⟩,
  ⟨[108, 101, 102, 116, 95, 114, 105, 103, 104, 116], [226, 134, 148]⟩,
  ⟨[98, 97, 99, 107], [240, 159, 148, 153]⟩,
  ⟨[102, 111, 114, 119, 97, 114, 100], [240, 159, 148, 156]⟩,
  ⟨[114, 101, 102, 114, 101, 115, 104], [240, 159, 148, 132]⟩,
  ⟨[107, 101, 121], [240, 159, 148, 145]⟩,
  ⟨[108, 111, 99, 107], [240, 159, 148, 146]⟩,
  ⟨[117, 110, 108, 111, 99, 107], [240, 159, 148, 147]⟩,
  ⟨[115, 104, 105, 101, 108, 100], [240, 159, 155, 161]⟩,
  ⟨[98, 111, 109, 98], [240, 159, 146, 163]⟩,
  ⟨[104, 97, 109, 109, 101, 114], [240, 159, 148, 168]⟩
]

def emojisChunk3 : List EmojiEntry := [
  ⟨[115, 99, 105, 115, 115, 111, 114, 115], [226, 156, 130]⟩,
  ⟨[112, 101, 110, 99, 105, 108], [226, 156, 143]⟩,
  ⟨[112, 101, 110], [240, 159, 150, 138]⟩,
  ⟨[109, 97, 103, 110, 105, 102, 105, 101, 114], [240, 159, 148, 141]⟩,
  ⟨[102, 108, 97, 115, 104, 108, 105, 103, 104, 116], [240, 159, 148, 166]⟩,
  ⟨[99, 108, 105, 112, 98, 111, 97, 114, 100], [240, 159, 147, 139]⟩,
  ⟨[99, 97, 108, 101, 110, 100, 97, 114], [240, 159, 147, 133]⟩,
  ⟨[101, 110, 118, 101, 108, 111, 112, 101], [226, 156, 137]⟩,
  ⟨[112, 104, 111, 110, 101], [240, 159, 147, 177]⟩,
  ⟨[108, 97, 112, 116, 111, 112], [240, 159, 146, 187]⟩,
  ⟨[100, 101, 115, 107, 116, 111, 112], [240, 159, 150, 165]⟩,
  ⟨[112, 114, 105, 110, 116, 101, 114], [240, 159, 150, 168]⟩,
  ⟨[102, 111, 108, 100, 101, 114], [240, 159, 147, 129]⟩,
  ⟨[102, 105, 108, 101], [240, 159, 147, 132]⟩,
  ⟨[116, 114, 97, 115, 104], [240, 159, 151, 145]⟩,
  ⟨[115, 117, 110], [226, 152, 128]⟩,
  ⟨[109, 111, 111, 110], [240, 159, 140, 153]⟩,
  ⟨[99, 108, 111, 117, 100], [226, 152, 129]⟩,
  ⟨[114, 97, 105, 110], [240, 159, 140, 167]⟩,
  ⟨[115, 110, 111, 119], [226, 157, 132]⟩,
  ⟨[101, 97, 114, 116, 104], [240, 159, 140, 141]⟩,
  ⟨[116, 114, 101, 101], [240, 159, 140, 179]⟩,
  ⟨[108, 101, 97, 102], [240, 159, 141, 131]⟩,
  ⟨[102, 108, 111, 119, 101, 114], [240, 159, 140, 184]⟩,
  ⟨[115, 101, 101, 100, 108, 105, 110, 103], [240, 159, 140, 177]⟩,
  ⟨[99, 111, 102, 102, 101, 101], [226, 152, 149]⟩,
  ⟨[98, 101, 101, 114], [240, 159, 141, 186]⟩
]

def emojisChunk4 : List EmojiEntry := [
  ⟨[112, 105, 122, 122, 97], [240, 159, 141, 149]⟩,
  ⟨[99, 97, 107, 101], [240, 159, 142, 130]⟩,
  ⟨[97, 112, 112, 108, 101], [240, 159, 141, 142]⟩,
  ⟨[100, 111, 103], [240, 159, 144, 182]⟩,
  ⟨[99, 97, 116], [240, 159, 144, 177]⟩,
  ⟨[115, 110, 97, 107, 101], [240, 159, 144, 141]⟩,
  ⟨[98, 105, 114, 100], [240, 159, 144, 166]⟩,
  ⟨[102, 105, 115, 104], [240, 159, 144, 159]⟩,
  ⟨[98, 117, 116, 116, 101, 114, 102, 108, 121], [240, 159, 166, 139]⟩,
  ⟨[98, 101, 101], [240, 159, 144, 157]⟩,
  ⟨[97, 110, 116], [240, 159, 144, 156]⟩,
  ⟨[115, 112, 105, 100, 101, 114], [240, 159, 149, 183]⟩,
  ⟨[117, 110, 105, 99, 111, 114, 110], [240, 159, 166, 132]⟩,
  ⟨[99, 97, 114], [240, 159, 154, 151]⟩,
  ⟨[97, 105, 114, 112, 108, 97, 110, 101], [226, 156, 136]⟩,
  ⟨[115, 104, 105, 112], [240, 159, 154, 162]⟩,
  ⟨[98, 105, 99, 121, 99, 108, 101], [240, 159, 154, 178]⟩,
  ⟨[116, 114, 97, 105, 110], [240, 159, 154, 134]⟩,
  ⟨[102, 117, 101, 108], [226, 155, 189]⟩,
  ⟨[116, 114, 111, 112, 104, 121], [240, 159, 143, 134]⟩,
  ⟨[109, 101, 100, 97, 108], [240, 159, 143, 133]⟩,
  ⟨[99, 114, 111, 119, 110], [240, 159, 145, 145]⟩,
  ⟨[103, 101, 109], [240, 159, 146, 142]⟩,
  ⟨[109, 111, 110, 101, 121], [240, 159, 146, 176]⟩,
  ⟨[103, 105, 102, 116], [240, 159, 142, 129]⟩,
  ⟨[114, 105, 98, 98, 111, 110], [240, 159, 142, 128]⟩,
  ⟨[98, 97, 108, 108, 111, 111, 110], [240, 159, 142, 136]⟩
]

def emojisChunk5 : List EmojiEntry := [
  ⟨[112, 97, 114, 116, 121], [240, 159, 142, 137]⟩,
  ⟨[99, 111, 110, 102, 101, 116, 116, 105], [240, 159, 142, 138]⟩,
  ⟨[109, 117, 115, 105, 99], [240, 159, 142, 181]⟩,
  ⟨[102, 105, 108, 109], [240, 159, 142, 172]⟩,
  ⟨[99, 97, 109, 101, 114, 97], [240, 159, 147, 183]⟩,
  ⟨[97, 114, 116], [240, 159, 142, 168]⟩,
  ⟨[112, 97, 108, 101, 116, 116, 101], [240, 159, 142, 168]⟩,
  ⟨[109, 105, 99, 114, 111, 112, 104, 111, 110, 101], [240, 159, 142, 164]⟩,
  ⟨[112, 105, 110], [240, 159, 147, 140]⟩,
  ⟨[112, 97, 112, 101, 114, 99, 108, 105, 112], [240, 159, 147, 142]⟩,
  ⟨[101, 121, 101], [240, 159, 145, 129]⟩,
  ⟨[98, 117, 108, 98], [240, 159, 146, 161]⟩,
  ⟨[98, 97, 116, 116, 101, 114, 121], [240, 159, 148, 139]⟩,
  ⟨[112, 108, 117, 103], [240, 159, 148, 140]⟩,
  ⟨[115, 97, 116, 101, 108, 108, 105, 116, 101], [240, 159, 155, 176]⟩,
  ⟨[102, 108, 97, 103], [240, 159, 154, 169]⟩,
  ⟨[108, 97, 98, 101, 108], [240, 159, 143, 183]⟩,
  ⟨[109, 101, 109, 111], [240, 159, 147, 157]⟩,
  ⟨[114, 101, 100, 95, 98, 111, 120], [240, 159, 159, 165]⟩,
  ⟨[111, 114, 97, 110, 103, 101, 95, 98, 111, 120], [240, 159, 159, 167]⟩,
  ⟨[121, 101, 108, 108, 111, 119, 95, 98, 111, 120], [240, 159, 159, 168]⟩,
  ⟨[103, 114, 101, 101, 110, 95, 98, 111, 120], [240, 159, 159, 169]⟩,
  ⟨[98, 108, 117, 101, 95, 98, 111, 120], [240, 159, 159, 166]⟩,
  ⟨[112, 117, 114, 112, 108, 101, 95, 98, 111, 120], [240, 159, 159, 170]⟩,
  ⟨[98, 114, 111, 119, 110, 95, 98, 111, 120], [240, 159, 159, 171]⟩,
  ⟨[119, 104, 105, 116, 101, 95, 98, 111, 120], [226, 172, 156]⟩,
  ⟨[98, 108, 97, 99, 107, 95, 98, 111, 120], [226, 172, 155]⟩
]

/-- The static emoji shortcode table EMOJIS from ansi_print.c: the
concatenation of the chunks above, in source order. -/
def EMOJIS : List EmojiEntry :=
  emojisChunk0 ++ emojisChunk1 ++ emojisChunk2 ++ emojisChunk3 ++ emojisChunk4 ++ emojisChunk5

/- ------------------------------------------------------------------ -/
/- Lookup helpers (lookup_emoji, lookup_attr, try_parse_unicode)      -/
/- ------------------------------------------------------------------ -/

/-- Linear scan of an emoji table: length check then byte comparison, as in
`lookup_emoji`.  (The C code rejects on a length mismatch before `memcmp`;
over byte lists the combined test is list equality.) -/
def emojiFind : List EmojiEntry → List Nat → Option (List Nat)
  | [], _ => none
  | e :: es, s => if s = e.name then some e.utf8 else emojiFind es s

/-- `lookup_emoji(s, len)` from ansi_print.c: find an emoji entry by
shortcode name; `none` models the C `NULL` (not-found) result. -/
def lookup_emoji (s : List Nat) : Option (List Nat) := emojiFind EMOJIS s

/-- Linear scan of an attribute table carrying the index of each entry (the
index models the identity of the entry's `fg_code`/`bg_code` pointers). -/
def attrFind : Nat → List AttrEntry → List Nat → Option (Nat × AttrEntry)
  | _, [], _ => none
  | i, e :: es, s => if s = e.name then some (i, e) else attrFind (i + 1) es s

/-- `lookup_attr(s, len)` from ansi_print.c. -/
def lookup_attr (s : List Nat) : Option (Nat × AttrEntry) := attrFind 0 ATTRS s

/-- Value of a hex digit byte, if it is one. -/
def hexNibble (c : Nat) : Option Nat :=
  if 48 ≤ c ∧ c ≤ 57 then some (c - 48)
  else if 65 ≤ c ∧ c ≤ 70 then some (c - 65 + 10)
  else if 97 ≤ c ∧ c ≤ 102 then some (c - 97 + 10)
  else none

/-- The hex-accumulation loop of `try_parse_unicode`, followed by its range
checks (`cp == 0`, `cp > 0x10FFFF`, surrogates). -/
def parseHexLoop : List Nat → Nat → Option Nat
  | [], cp =>
    if cp = 0 ∨ 0x10FFFF < cp then none
    else if 0xD800 ≤ cp ∧ cp ≤ 0xDFFF then none
    else some cp
  | c :: cs, cp =>
    match hexNibble c with
    | some n => parseHexLoop cs (cp * 16 + n)
    | none => none

/-- `try_parse_unicode(s, len)` from ansi_print.c: parse the `U-XXXX` text
between the colons of a `:U-XXXX:` escape.  `some cp` models the C success
path (return 1 with `*out = cp`). -/
def try_parse_unicode (s : List Nat) : Option Nat :=
  match s with
  | u :: d :: rest =>
    if (u :: d :: rest).length < 3 ∨ 8 < (u :: d :: rest).length then none
    else if u = 85 ∧ d = 45 then parseHexLoop rest 0 else none
  | _ => none

/- ------------------------------------------------------------------ -/
/- Markup tokenizer (next_markup_token)                               -/
/- ------------------------------------------------------------------ -/

/-- A markup token, as produced by `next_markup_token`. -/
inductive MarkupToken where
  /-- TOK_CHAR: lead byte plus drained UTF-8 continuation bytes. -/
  | chr (c : Nat) (cont : List Nat)
  /-- TOK_TAG: the bytes between `[` and `]`. -/
  | tag (content : List Nat)
  /-- TOK_EMOJI: the resolved UTF-8 bytes. -/
  | emo (utf8 : List Nat)
  /-- TOK_UNICODE: the parsed codepoint. -/
  | ucp (cp : Nat)
  /-- TOK_ESC_BRACKET: a literal `[` or `]` from `[[` / `]]`. -/
  | escBr (c : Nat)
  /-- TOK_ESC_COLON: a literal `:` from `::`. -/
  | escCol
deriving DecidableEq

/-- The fall-through plain-character case of `next_markup_token`: consume the
lead byte and drain UTF-8 continuation bytes. -/
def charTok (c1 : Nat) (rest : List Nat) : MarkupToken × List Nat :=
  (.chr c1 (rest.takeWhile isCont), rest.dropWhile isCont)

/-- `next_markup_token` from ansi_print.c: produce the next token and the
remaining input, or `none` at end of input (TOK_END). -/
def next_markup_token (p : List Nat) : Option (MarkupToken × List Nat) :=
  match p with
  | [] => none
  | c1 :: rest =>
    if c1 = 91 ∧ rest.head? = some 91 then some (.escBr 91, rest.tail)
    else if c1 = 93 ∧ rest.head? = some 93 then some (.escBr 93, rest.tail)
    else if c1 = 58 ∧ rest.head? = some 58 then some (.escCol, rest.tail)
    else if c1 = 91 then
      match idxOfByte 93 rest with
      | some i => some (.tag (rest.take i), rest.drop (i + 1))
      | none => some (charTok c1 rest)
    else if c1 = 58 then
      match idxOfByte 58 rest with
      | some i =>
        if 1 ≤ i then
          match lookup_emoji (rest.take i) with
          | some u => some (.emo u, rest.drop (i + 1))
          | none =>
            match try_parse_unicode (rest.take i) with
            | some cp => some (.ucp cp, rest.drop (i + 1))
            | none => some (charTok c1 rest)
        else some (charTok c1 rest)
      | none => some (charTok c1 rest)
    else some (charTok c1 rest)

/-- The token stream of an input (fueled; fuel `p.length` is enough because
every token consumes at least one byte). -/
def tokensF : Nat → List Nat → List MarkupToken
  | 0, _ => []
  | fuel + 1, p =>
    match next_markup_token p with
    | none => []
    | some (t, r) => t :: tokensF fuel r

/- ------------------------------------------------------------------ -/
/- Tag state                                                          -/
/- ------------------------------------------------------------------ -/

/-- A value of the C `m_tag_state.fg_code` pointer: either the fg literal of
`ATTRS[i]` or the `m_num_fg` buffer currently holding numeric color
`code`. -/
inductive FgRef where
  | attr (i : Nat)
  | num (code : Nat)
deriving DecidableEq

/-- A value of the C `m_tag_state.bg_code` pointer. -/
inductive BgRef where
  | attr (i : Nat)
  | num (code : Nat)
deriving DecidableEq

/-- `TagState` from ansi_print.c: active fg/bg code references and style
bitmask. -/
structure TagState where
  fg : Option FgRef
  bg : Option BgRef
  styles : Nat
deriving DecidableEq

/-- `GradientState` from ansi_print.c (`start`/`end` renamed `gstart`/`gend`
because `end` is a Lean keyword). -/
structure GradientState where
  gstart : RGB
  gend : RGB
  len : Int
  idx : Int
deriving DecidableEq

/-- The per-call mutable engine state other than the output bytes:
`m_tag_state`, `m_rainbow_idx`, `m_rainbow_len`, `m_gradient`. -/
structure CoreState where
  tag : TagState
  rainbowIdx : Int
  rainbowLen : Int
  grad : GradientState
deriving DecidableEq

/-- Engine state together with the bytes pushed to the output sink so far. -/
structure EmitState where
  core : CoreState
  out : List Nat
deriving DecidableEq

/-- Process-wide configuration read by one emission call: `m_color_enabled`,
`m_default_fg`, `m_default_bg`. -/
structure Config where
  colorEnabled : Bool
  defaultFg : Option FgRef
  defaultBg : Option BgRef
deriving DecidableEq

/-- Decimal digits of a number, as bytes (C `snprintf` `%d` for the
nonnegative values the engine prints). -/
def digitsB (n : Nat) : List Nat := b (toString n)

/-- Contents of the `m_num_fg` buffer for a clamped numeric code:
`\x1b[38;5;<code>m`. -/
def numFgBytes (code : Nat) : List Nat := esc "[38;5;" ++ digitsB code ++ [109]

/-- Contents of the `m_num_bg` buffer for a clamped numeric code:
`\x1b[48;5;<code>m`. -/
def numBgBytes (code : Nat) : List Nat := esc "[48;5;" ++ digitsB code ++ [109]

/-- The fg escape string a `FgRef` points at (used for `strcmp` in selective
close and for re-emission). -/
def fgText : FgRef → List Nat
  | .attr i => ((ATTRS[i]?).bind AttrEntry.fg).getD []
  | .num c => numFgBytes c

/-- The bg escape string a `BgRef` points at. -/
def bgText : BgRef → List Nat
  | .attr i => ((ATTRS[i]?).bind AttrEntry.bg).getD []
  | .num c => numBgBytes c

/-- `reapply_state` from ansi_print.c: bytes re-emitted for the current
fg/bg/styles after a RESET. -/
def reapply_state (t : TagState) : List Nat :=
  (match t.fg with | some r => fgText r | none => []) ++
  (match t.bg with | some r => bgText r | none => []) ++
  (if t.styles &&& 1 ≠ 0 then esc "[1m" else []) ++
  (if t.styles &&& 2 ≠ 0 then esc "[2m" else []) ++
  (if t.styles &&& 4 ≠ 0 then esc "[3m" else []) ++
  (if t.styles &&& 8 ≠ 0 then esc "[4m" else []) ++
  (if t.styles &&& 16 ≠ 0 then esc "[7m" else []) ++
  (if t.styles &&& 32 ≠ 0 then esc "[9m" else [])

/-- `find_on` from ansi_print.c: index of the first ` on ` separator. -/
def find_on : List Nat → Option Nat
  | a :: rest =>
    match rest with
    | o :: n :: d :: _ =>
      if a = 32 ∧ o = 111 ∧ n = 110 ∧ d = 32 then some 0
      else (find_on rest).map (· + 1)
    | _ => none
  | [] => none

/- ------------------------------------------------------------------ -/
/- Word splitting and numeric color parsing                           -/
/- ------------------------------------------------------------------ -/

/-- Fueled body of `splitWords`. -/
def splitWordsGo : Nat → List Nat → List (List Nat)
  | 0, _ => []
  | fuel + 1, l =>
    let l1 := l.dropWhile isSpaceB
    if l1 = [] then []
    else
      l1.takeWhile (fun c => ¬ isSpaceB c) ::
        splitWordsGo fuel (l1.dropWhile (fun c => ¬ isSpaceB c))

/-- The word-walking loops of `emit_tag`/`emit_close_tag`: skip spaces, take
a maximal non-space run, repeat. -/
def splitWords (l : List Nat) : List (List Nat) := splitWordsGo l.length l

/-- Numeric value of a run of decimal digit bytes. -/
def digitsVal (ds : List Nat) : Nat := ds.foldl (fun a d => a * 10 + (d - 48)) 0

/-- Is a byte an ASCII decimal digit? -/
def isDigitB (c : Nat) : Bool := 48 ≤ c && c ≤ 57

/-- C `strtol(s, &endptr, 10)` semantics on a word tail: optional sign, then
a maximal digit run; `none` models `endptr == s` (no digits consumed).
Values are unbounded here; `strtol` saturates at `LONG_MIN`/`LONG_MAX`,
which clamps to the same 0/255 results as the unbounded value. -/
def parseLeadingInt (l : List Nat) : Option Int :=
  let (neg, rest) :=
    match l with
    | 45 :: r => (true, r)
    | 43 :: r => (false, r)
    | _ => (false, l)
  let ds := rest.takeWhile isDigitB
  if ds = [] then none
  else some ((if neg then -1 else 1) * (digitsVal ds : Int))

/-- Clamp `val < 0 ? 0 : val > 255 ? 255 : val` from the numeric color
branches. -/
def clamp255 (v : Int) : Nat := (max 0 (min 255 v)).toNat

/- ------------------------------------------------------------------ -/
/- Open-tag word application (emit_tag foreground/background loops)   -/
/- ------------------------------------------------------------------ -/

/-- One iteration of `emit_tag`'s foreground word loop: named attribute,
else numeric `fg:<n>` (clamped), else ignored. -/
def applyFgWord (acc : TagState × List Nat) (w : List Nat) : TagState × List Nat :=
  let t := acc.1
  let out := acc.2
  match lookup_attr w with
  | some (i, e) =>
    if e.style ≠ 0 then
      ({ t with styles := t.styles ||| e.style }, out ++ e.fg.getD [])
    else
      ({ t with fg := some (.attr i) }, out ++ e.fg.getD [])
  | none =>
    if 3 < w.length ∧ w.take 3 = b "fg:" then
      match parseLeadingInt (w.drop 3) with
      | some v =>
        let code := clamp255 v
        ({ t with fg := some (.num code) }, out ++ numFgBytes code)
      | none => (t, out)
    else (t, out)

/-- `emit_tag`'s background handling: trim, then named color, else numeric
`bg:<n>` (clamped), else ignored. -/
def applyBg (acc : TagState × List Nat) (bgRaw : List Nat) : TagState × List Nat :=
  let t := acc.1
  let out := acc.2
  let bgw := trimTrail isSpaceB (bgRaw.dropWhile isSpaceB)
  let named :=
    match lookup_attr bgw with
    | some (i, e) => if e.style = 0 then some (i, e) else none
    | none => none
  match named with
  | some (i, e) => ({ t with bg := some (.attr i) }, out ++ e.bg.getD [])
  | none =>
    if 3 < bgw.length ∧ bgw.take 3 = b "bg:" then
      match parseLeadingInt (bgw.drop 3) with
      | some v =>
        let code := clamp255 v
        ({ t with bg := some (.num code) }, out ++ numBgBytes code)
      | none => (t, out)
    else (t, out)

/- ------------------------------------------------------------------ -/
/- Close-tag word application (emit_close_tag loops)                  -/
/- ------------------------------------------------------------------ -/

/-- One iteration of `emit_close_tag`'s foreground word loop: clear a style
bit; revert a named color to the default if its code pointer is the active
one; for `fg:<n>`, revert only if the rendered code string equals the
active one. -/
def closeFgWord (cfg : Config) (t : TagState) (w : List Nat) : TagState :=
  match lookup_attr w with
  | some (i, e) =>
    if e.style ≠ 0 then { t with styles := t.styles &&& (255 ^^^ e.style) }
    else if e.fg ≠ none ∧ t.fg = some (.attr i) then { t with fg := cfg.defaultFg }
    else t
  | none =>
    if 3 < w.length ∧ w.take 3 = b "fg:" then
      match t.fg with
      | some fr =>
        match parseLeadingInt (w.drop 3) with
        | some v =>
          if numFgBytes (clamp255 v) = fgText fr then { t with fg := cfg.defaultFg }
          else t
        | none => t
      | none => t
    else t

/-- The `bg:<n>` branch of `emit_close_tag`'s background handling. -/
def closeBgNum (cfg : Config) (t : TagState) (br : BgRef) (bgw : List Nat) : TagState :=
  if 3 < bgw.length ∧ bgw.take 3 = b "bg:" then
    match parseLeadingInt (bgw.drop 3) with
    | some v =>
      if numBgBytes (clamp255 v) = bgText br then { t with bg := cfg.defaultBg }
      else t
    | none => t
  else t

/-- `emit_close_tag`'s background handling: clear the active bg (to the
default) only if the close tag names it, by pointer for named colors and by
rendered-string comparison for `bg:<n>`. -/
def closeBg (cfg : Config) (t : TagState) (bgRaw : List Nat) : TagState :=
  match t.bg with
  | none => t
  | some br =>
    let bgw := trimTrail isSpaceB (bgRaw.dropWhile isSpaceB)
    match lookup_attr bgw with
    | some (i, e) =>
      if e.style = 0 ∧ t.bg = some (.attr i) ∧ e.bg ≠ none then { t with bg := cfg.defaultBg }
      else closeBgNum cfg t br bgw
    | none => closeBgNum cfg t br bgw

/- ------------------------------------------------------------------ -/
/- Gradient / rainbow interpolators                                   -/
/- ------------------------------------------------------------------ -/

/-- `parse_gradient_tag` from ansi_print.c: parse two color names from the
arguments of `[gradient c1 c2]`; a missing, unknown, or non-color name
deactivates the whole tag. -/
def parse_gradient_tag (core : CoreState) (args : List Nat) : CoreState :=
  let a1 := args.dropWhile isSpaceB
  let c1 := a1.takeWhile (fun c => ¬ isSpaceB c)
  let r1 := a1.dropWhile (fun c => ¬ isSpaceB c)
  let c2 := (r1.dropWhile isSpaceB).takeWhile (fun c => ¬ isSpaceB c)
  match lookup_attr c1, lookup_attr c2 with
  | some (_, e1), some (_, e2) =>
    if e1.style ≠ 0 ∨ e2.style ≠ 0 then core
    else
      { core with
        grad := { gstart := e1.rgb, gend := e2.rgb, idx := 0, len := 0 },
        tag := { core.tag with styles := core.tag.styles ||| 128 } }
  | _, _ => core

/-- One channel of the gradient interpolation in `emit_char_color`:
`start + (end - start) * i / n` with C truncating division, `n = len - 1`
guarded to at least 1 and `i` clamped to `n`. -/
def gradChannel (sv ev : Nat) (len idx : Int) : Int :=
  let n : Int := if 1 < len then len - 1 else 1
  let i : Int := if n < idx then n else idx
  (sv : Int) + Int.tdiv (((ev : Int) - (sv : Int)) * i) n

/-- The RGB triple `emit_char_color` computes for the current gradient
position. -/
def gradColor (g : GradientState) : Int × Int × Int :=
  (gradChannel g.gstart.r g.gend.r g.len g.idx,
   gradChannel g.gstart.g g.gend.g g.len g.idx,
   gradChannel g.gstart.b g.gend.b g.len g.idx)

/-- The truecolor escape `\x1b[38;2;r;g;bm` emitted per gradient unit. -/
def gradEscape (c : Int × Int × Int) : List Nat :=
  esc "[38;2;" ++ b (toString c.1) ++ [59] ++ b (toString c.2.1) ++ [59] ++
    b (toString c.2.2) ++ [109]

/-- The `RAINBOW` 256-color palette from ansi_print.c (21 entries). -/
def RAINBOW : List Nat :=
  [196, 202, 208, 214, 220, 226, 190, 154, 118, 82, 46, 48, 51, 45, 39, 33,
   63, 93, 129, 165, 201]

/-- The palette index `emit_char_color` computes for the current rainbow
position: `idx * (RAINBOW_LEN - 1) / (len > 1 ? len - 1 : 1)`, clamped to
the last entry. -/
def rainbowPos (len idx : Int) : Int :=
  let pos := Int.tdiv (idx * 20) (if 1 < len then len - 1 else 1)
  if 20 < pos then 20 else pos

/-- `emit_char_color` from ansi_print.c: emit the per-unit gradient or
rainbow escape (when the effect bit is set and color is enabled) and bump
the effect index. -/
def emit_char_color (cfg : Config) (st : EmitState) : EmitState :=
  if st.core.tag.styles &&& 128 ≠ 0 ∧ cfg.colorEnabled then
    { core := { st.core with grad := { st.core.grad with idx := st.core.grad.idx + 1 } },
      out := st.out ++ gradEscape (gradColor st.core.grad) }
  else if st.core.tag.styles &&& 64 ≠ 0 ∧ cfg.colorEnabled then
    let pos := rainbowPos st.core.rainbowLen st.core.rainbowIdx
    { core := { st.core with rainbowIdx := st.core.rainbowIdx + 1 },
      out := st.out ++ esc "[38;5;" ++ digitsB (RAINBOW.getD pos.toNat 0) ++ [109] }
  else st

/-- `emit_unicode_codepoint` from ansi_print.c: standard UTF-8 encoding by
range. -/
def emit_unicode_codepoint (cp : Nat) : List Nat :=
  if cp ≤ 0x7F then [cp]
  else if cp ≤ 0x7FF then
    [0xC0 ||| (cp >>> 6), 0x80 ||| (cp &&& 0x3F)]
  else if cp ≤ 0xFFFF then
    [0xE0 ||| (cp >>> 12), 0x80 ||| ((cp >>> 6) &&& 0x3F), 0x80 ||| (cp &&& 0x3F)]
  else if cp ≤ 0x10FFFF then
    [0xF0 ||| (cp >>> 18), 0x80 ||| ((cp >>> 12) &&& 0x3F),
     0x80 ||| ((cp >>> 6) &&& 0x3F), 0x80 ||| (cp &&& 0x3F)]
  else []

/- ------------------------------------------------------------------ -/
/- Effect span pre-scan (count_effect_chars)                          -/
/- ------------------------------------------------------------------ -/

/-- The stopping test of `count_effect_chars`: a `[/]` tag, or `[/name]`
with the exact name (optionally followed by a space and more text). -/
def isStopTag (name content : List Nat) : Bool :=
  content.head? == some 47 &&
    (content.length == 1 ||
      (decide (name.length + 1 ≤ content.length) &&
       (content.drop 1).take name.length == name &&
       (content.length == name.length + 1 || content[name.length + 1]? == some 32)))

/-- Visible-unit weight of one token in the pre-scan: plain characters count
unless they are space/tab/newline; escapes, shortcodes and codepoints count
1; tags count 0. -/
def countVisWeight : MarkupToken → Nat
  | .tag _ => 0
  | .chr c _ => if c ≠ 32 ∧ c ≠ 9 ∧ c ≠ 10 then 1 else 0
  | _ => 1

/-- The scanning loop of `count_effect_chars`, with the accumulated count;
`max acc 1` is C's `count > 0 ? count : 1`. -/
def countLoop (name : List Nat) : Nat → List Nat → Nat → Nat
  | 0, _, acc => max acc 1
  | fuel + 1, p, acc =>
    match next_markup_token p with
    | none => max acc 1
    | some (t, r) =>
      match t with
      | .tag content =>
        if isStopTag name content then max acc 1 else countLoop name fuel r acc
      | _ => countLoop name fuel r (acc + countVisWeight t)

/-- `count_effect_chars(p, name, name_len)` from ansi_print.c: the
gradient/rainbow span pre-scan over the remaining input. -/
def count_effect_chars (name p : List Nat) : Nat := countLoop name p.length p 0

/- ------------------------------------------------------------------ -/
/- Tag emission (emit_close_tag, emit_tag)                            -/
/- ------------------------------------------------------------------ -/

/-- Split tag content at ` on ` into the foreground part and the (possibly
absent) background part, as `emit_tag`/`emit_close_tag` both do. -/
def splitOn (tag : List Nat) : List Nat × Option (List Nat) :=
  match find_on tag with
  | some i => (tag.take i, some (tag.drop (i + 4)))
  | none => (tag, none)

/-- The tag-state effect of `emit_close_tag`'s word branch (foreground word
loop then background handling); shared by the full close-tag function. -/
def closeWordsTag (cfg : Config) (t : TagState) (tag : List Nat) : TagState :=
  let parts := splitOn tag
  let t1 := (splitWords parts.1).foldl (closeFgWord cfg) t
  match parts.2 with
  | some bgRaw => if bgRaw ≠ [] then closeBg cfg t1 bgRaw else t1
  | none => t1

/-- `emit_close_tag(tag, len)` from ansi_print.c, acting on the engine
state: `[/]` restores the defaults; `[/gradient...]` clears the gradient
bit (leaving the gradient counters untouched); `[/rainbow]` clears the
rainbow bit and zeroes the rainbow counters; otherwise the word branch
selectively reverts attributes.  Every branch emits RESET and re-applies
the remaining state (`[/]` re-applies only when a default is set). -/
def emit_close_tag (cfg : Config) (st : EmitState) (tag : List Nat) : EmitState :=
  if tag = [] then
    let t : TagState := { fg := cfg.defaultFg, bg := cfg.defaultBg, styles := 0 }
    { core := { st.core with tag := t },
      out := st.out ++ RESET ++
        (if cfg.defaultFg ≠ none ∨ cfg.defaultBg ≠ none then reapply_state t else []) }
  else if 8 ≤ tag.length ∧ tag.take 8 = b "gradient" ∧
      (tag.length = 8 ∨ tag[8]? = some 32) then
    let t := { st.core.tag with styles := st.core.tag.styles &&& (255 ^^^ 128) }
    { core := { st.core with tag := t }, out := st.out ++ RESET ++ reapply_state t }
  else if tag = b "rainbow" then
    let t := { st.core.tag with styles := st.core.tag.styles &&& (255 ^^^ 64) }
    { core := { st.core with tag := t, rainbowIdx := 0, rainbowLen := 0 },
      out := st.out ++ RESET ++ reapply_state t }
  else
    let t := closeWordsTag cfg st.core.tag tag
    { core := { st.core with tag := t }, out := st.out ++ RESET ++ reapply_state t }

/-- The open-tag word processing of `emit_tag` (foreground word loop then
background handling), producing the new tag state and appended output. -/
def openWords (t : TagState) (out : List Nat) (tag : List Nat) : TagState × List Nat :=
  let parts := splitOn tag
  let acc1 := (splitWords parts.1).foldl applyFgWord (t, out)
  match parts.2 with
  | some bgRaw => if bgRaw ≠ [] then applyBg acc1 bgRaw else acc1
  | none => acc1

/-- `emit_tag(tag, len)` from ansi_print.c: no-op when color is disabled or
the tag is empty; `[/...]` delegates to `emit_close_tag`; `[gradient ...]`
delegates to `parse_gradient_tag`; otherwise apply the words. -/
def emit_tag (cfg : Config) (st : EmitState) (tag : List Nat) : EmitState :=
  if ¬ cfg.colorEnabled ∨ tag = [] then st
  else if tag.head? = some 47 then emit_close_tag cfg st (tag.drop 1)
  else if 9 < tag.length ∧ tag.take 9 = b "gradient " then
    { st with core := parse_gradient_tag st.core (tag.drop 9) }
  else
    let r := openWords st.core.tag st.out tag
    { core := { st.core with tag := r.1 }, out := r.2 }

/- ------------------------------------------------------------------ -/
/- Emission driver (ansi_emit)                                        -/
/- ------------------------------------------------------------------ -/

/-- Process one token as the loop body of `ansi_emit` does, including the
gradient/rainbow pre-scan performed right after a tag token when the effect
is active with span length still zero (`rest` is the unconsumed input the
pre-scan reads without consuming). -/
def processToken (cfg : Config) (st : EmitState) (t : MarkupToken)
    (rest : List Nat) : EmitState :=
  match t with
  | .escBr c => { st with out := st.out ++ [c] }
  | .escCol => { st with out := st.out ++ [58] }
  | .tag content =>
    let st1 := emit_tag cfg st content
    let st2 :=
      if st1.core.tag.styles &&& 128 ≠ 0 ∧ st1.core.grad.len = 0 then
        { st1 with core := { st1.core with grad :=
            { st1.core.grad with len := (count_effect_chars (b "gradient") rest : Int) } } }
      else st1
    if st2.core.tag.styles &&& 64 ≠ 0 ∧ st2.core.rainbowLen = 0 then
      { st2 with core := { st2.core with
          rainbowLen := (count_effect_chars (b "rainbow") rest : Int) } }
    else st2
  | .chr c cont =>
    let st1 := if c ≠ 32 ∧ c ≠ 9 ∧ c ≠ 10 then emit_char_color cfg st else st
    { st1 with out := st1.out ++ c :: cont }
  | .emo u =>
    let st1 := emit_char_color cfg st
    { st1 with out := st1.out ++ u }
  | .ucp cp =>
    let st1 := emit_char_color cfg st
    { st1 with out := st1.out ++ emit_unicode_codepoint cp }

/-- The token loop of `ansi_emit` (fueled). -/
def emitLoop (cfg : Config) : Nat → List Nat → EmitState → EmitState
  | 0, _, st => st
  | fuel + 1, p, st =>
    match next_markup_token p with
    | none => st
    | some (t, r) => emitLoop cfg fuel r (processToken cfg st t r)

/-- The state `ansi_emit` installs at call start: tag state cleared to
no-fg/no-bg/no-styles and all effect counters zeroed (the gradient start/end
colors are dead state at this point, modelled as black). -/
def initState : EmitState :=
  { core := { tag := { fg := none, bg := none, styles := 0 },
              rainbowIdx := 0, rainbowLen := 0,
              grad := { gstart := ⟨0, 0, 0⟩, gend := ⟨0, 0, 0⟩, len := 0, idx := 0 } },
    out := [] }

/-- `ansi_emit(p)` from ansi_print.c: reset the per-call state, run the
token loop, and append a trailing RESET when color is enabled and any
attribute is still active. -/
def ansi_emit (cfg : Config) (p : List Nat) : EmitState :=
  let st := emitLoop cfg p.length p initState
  if cfg.colorEnabled ∧
      (st.core.tag.fg ≠ none ∨ st.core.tag.bg ≠ none ∨ st.core.tag.styles ≠ 0) then
    { st with out := st.out ++ RESET }
  else st

/- ------------------------------------------------------------------ -/
/- Bar composer (ansi_bar)                                            -/
/- ------------------------------------------------------------------ -/

/-- The `m_bar_block` glyph table: UTF-8 bytes of the block character for a
fill of 1..8 eighths (index 0 is C's unused NULL slot, never read because
the fill loop only runs with at least one eighth left). -/
def barBlock (fill : Nat) : List Nat :=
  match fill with
  | 1 => [0xe2, 0x96, 0x8f]
  | 2 => [0xe2, 0x96, 0x8e]
  | 3 => [0xe2, 0x96, 0x8d]
  | 4 => [0xe2, 0x96, 0x8c]
  | 5 => [0xe2, 0x96, 0x8b]
  | 6 => [0xe2, 0x96, 0x8a]
  | 7 => [0xe2, 0x96, 0x89]
  | 8 => [0xe2, 0x96, 0x88]
  | _ => []

/-- The `m_bar_track` table: track glyph bytes by `ansi_bar_track_t`. -/
def barTrack (i : Nat) : List Nat :=
  match i with
  | 0 => [0x20]
  | 1 => [0xe2, 0x96, 0x91]
  | 2 => [0xe2, 0x96, 0x92]
  | 3 => [0xe2, 0x96, 0x93]
  | 4 => [0xc2, 0xb7]
  | 5 => [0xe2, 0x94, 0x80]
  | _ => []

/-- The raw fill fraction of `ansi_bar`: `(value-min)/(max-min)` with the
degenerate `max == min` range giving 1. -/
def barFractionRaw (value vmin vmax : ℚ) : ℚ :=
  if vmax = vmin then 1 else (value - vmin) / (vmax - vmin)

/-- The fill fraction after `ansi_bar`'s clamp into [0,1]. -/
def barFraction (value vmin vmax : ℚ) : ℚ :=
  if barFractionRaw value vmin vmax < 0 then 0
  else if 1 < barFractionRaw value vmin vmax then 1
  else barFractionRaw value vmin vmax

/-- `(int)(fraction * width * 8 + 0.5)` of `ansi_bar` (the fraction is
nonnegative after clamping, so the C cast is the floor). -/
def barEighths (value vmin vmax : ℚ) (width : Int) : Int :=
  ⌊barFraction value vmin vmax * (width : ℚ) * 8 + 1 / 2⌋

/-- `filled_cells = (eighths + 7) / 8` of `ansi_bar` (both operands are
nonnegative, where C and Lean division agree). -/
def barFilled (eighths : Int) : Int := (eighths + 7) / 8

/-- `empty = width - filled_cells` of `ansi_bar`. -/
def barEmpty (width filled : Int) : Int := width - filled

/-- The filled-cell loop of `ansi_bar`: consume up to 8 eighths per cell,
emitting the matching block glyph, while 3 bytes of room remain before the
reserved close-tag region (`out + 3 <= blk_end`).  Fueled by the remaining
eighths (each iteration consumes at least one). -/
def emitBlocks : Nat → Nat → Nat → List Nat
  | 0, _, _ => []
  | fuel + 1, e, room =>
    if e = 0 then []
    else if room < 3 then []
    else
      let fill := min e 8
      barBlock fill ++ emitBlocks fuel (e - fill) (room - 3)

/-- The empty-track loop of `ansi_bar`: emit the track glyph for each empty
cell while it still fits (`out + tk_len <= end`); the loop stops at the
first failure. -/
def emitTrack : Nat → List Nat → Nat → List Nat
  | 0, _, _ => []
  | n + 1, tk, room =>
    if tk.length ≤ room then tk ++ emitTrack n tk (room - tk.length)
    else []

/-- The writing phase of `ansi_bar`, after the numeric parameters are
fixed: open tag (only if `[color]` plus `[/color]` fit the remaining
capacity `cap`), filled-cell glyphs (with the close tag's bytes reserved),
close tag, then empty track glyphs while they fit.  `resolved` is the color
name when `lookup_attr` found an entry with a foreground code. -/
def barBody (cap : Nat) (tk : List Nat) (eighthsN emptyN : Nat)
    (resolved : Option (List Nat)) : List Nat :=
  match resolved with
  | some cname =>
    if (cname.length + 2) + (cname.length + 3) ≤ cap then
      (91 :: cname ++ [93]) ++
      emitBlocks eighthsN eighthsN ((cap - (cname.length + 3)) - (cname.length + 2)) ++
      (91 :: 47 :: cname ++ [93]) ++
      emitTrack emptyN tk (cap - ((cname.length + 2) +
        (emitBlocks eighthsN eighthsN
          ((cap - (cname.length + 3)) - (cname.length + 2))).length +
        (cname.length + 3)))
    else
      emitBlocks eighthsN eighthsN cap ++
      emitTrack emptyN tk (cap - (emitBlocks eighthsN eighthsN cap).length)
  | none =>
    emitBlocks eighthsN eighthsN cap ++
    emitTrack emptyN tk (cap - (emitBlocks eighthsN eighthsN cap).length)

/-- `ansi_bar(buf, buf_size, color, width, track, value, min, max)` from
ansi_print.c, returning the bytes of the produced string (excluding the
terminating NUL).  `bufNull` models a NULL `buf` pointer; a NULL or
zero-sized buffer returns the static empty string without touching the
buffer, and `buf_size == 1` or `width < 1` produce an empty string. -/
def ansi_bar (bufNull : Bool) (bufSize : Nat) (color : Option (List Nat))
    (width track : Int) (value vmin vmax : ℚ) : List Nat :=
  if bufNull ∨ bufSize = 0 then []
  else if bufSize < 2 then []
  else if width < 1 then []
  else
    let tkIdx := if track < 0 ∨ 6 ≤ track then 0 else track.toNat
    let eighths := barEighths value vmin vmax width
    let filled := barFilled eighths
    let resolved : Option (List Nat) :=
      match color with
      | some cname =>
        match lookup_attr cname with
        | some (_, e) => if e.fg ≠ none then some cname else none
        | none => none
      | none => none
    barBody (bufSize - 1) (barTrack tkIdx) eighths.toNat
      (barEmpty width filled).toNat resolved

/- ------------------------------------------------------------------ -/
/- Generic lemmas about the lookup scans                              -/
/- ------------------------------------------------------------------ -/

theorem emojiFind_some {es : List EmojiEntry} {s u : List Nat}
    (h : emojiFind es s = some u) : ∃ e ∈ es, e.name = s ∧ e.utf8 = u := by
  induction es with
  | nil => simp [emojiFind] at h
  | cons e es ih =>
    rw [emojiFind] at h
    split at h
    · rename_i hs
      exact ⟨e, by simp, hs.symm, Option.some.inj h⟩
    · obtain ⟨e1, he1, hn, hu⟩ := ih h
      exact ⟨e1, by simp [he1], hn, hu⟩

theorem emojiFind_none {es : List EmojiEntry} {s : List Nat} :
    emojiFind es s = none ↔ ∀ e ∈ es, e.name ≠ s := by
  induction es with
  | nil => simp [emojiFind]
  | cons e es ih =>
    rw [emojiFind]
    split
    · rename_i hs
      simp only [reduceCtorEq, false_iff]
      intro hall
      exact hall e (by simp) hs.symm
    · rename_i hs
      rw [ih]
      constructor
      · intro hall e1 he1
        rcases List.mem_cons.mp he1 with h1 | h1
        · subst h1; exact fun hc => hs hc.symm
        · exact hall e1 h1
      · intro hall e1 he1
        exact hall e1 (List.mem_cons_of_mem _ he1)

theorem attrFind_some {k : Nat} {es : List AttrEntry} {s : List Nat} {i : Nat}
    {e : AttrEntry} (h : attrFind k es s = some (i, e)) : e ∈ es ∧ e.name = s := by
  induction es generalizing k with
  | nil => simp [attrFind] at h
  | cons e1 es ih =>
    rw [attrFind] at h
    split at h
    · rename_i hs
      obtain ⟨-, he⟩ := Prod.mk.injEq .. ▸ Option.some.inj h
      exact ⟨by simp [← he], he ▸ hs.symm⟩
    · obtain ⟨hm, hn⟩ := ih h
      exact ⟨List.mem_cons_of_mem _ hm, hn⟩

/-- No attribute name contains a colon, so any word containing one fails
`lookup_attr`. -/
theorem lookup_attr_no_colon {s : List Nat} (h58 : 58 ∈ s) : lookup_attr s = none := by
  cases hl : lookup_attr s with
  | none => rfl
  | some p =>
    obtain ⟨i, e⟩ := p
    obtain ⟨he, hn⟩ := attrFind_some hl
    have hfree : ∀ e ∈ ATTRS, (58 : Nat) ∉ e.name := by decide
    exact absurd (hn ▸ h58) (hfree _ he)

/- ------------------------------------------------------------------ -/
/- C4: emoji shortcode lookup                                         -/
/- ------------------------------------------------------------------ -/

/-- C4 (amended): for every shortcode name, `lookup_emoji` performs a
case-SENSITIVE exact byte match against the static emoji table — a
successful lookup returns the UTF-8 bytes of an entry whose name equals the
query exactly, and an unknown shortcode is the normal not-found outcome
(`none`, never an error), which happens precisely when no entry's name
equals the query.  (The claim's "case-insensitive" is refuted separately: a
shortcode differing from a table name only in ASCII letter case does NOT
resolve.) -/
theorem lookup_emoji_exact_match (s : List Nat) :
    (∀ u, lookup_emoji s = some u → ∃ e ∈ EMOJIS, e.name = s ∧ e.utf8 = u) ∧
    (lookup_emoji s = none ↔ ∀ e ∈ EMOJIS, e.name ≠ s) :=
  ⟨fun _ h => emojiFind_some h, emojiFind_none⟩

theorem lookup_emoji_exact_match_witness :
    ∃ e ∈ EMOJIS, e.name = b "fire" ∧ e.utf8 = [240, 159, 148, 165] :=
  (lookup_emoji_exact_match (b "fire")).1 _ rfl

/-- C4 counterexample: `:FIRE:` differs from the table name `fire` only in
ASCII letter case, yet the lookup does not resolve it — the match is
case-sensitive, contradicting the claim. -/
theorem lookup_emoji_case_sensitive_cex :
    lookup_emoji (b "FIRE") = none ∧
    lookup_emoji (b "fire") = some [240, 159, 148, 165] ∧
    b "FIRE" ≠ b "fire" := ⟨rfl, rfl, by decide⟩

/- ------------------------------------------------------------------ -/
/- C3: gradient / rainbow interpolation formulas and endpoints        -/
/- ------------------------------------------------------------------ -/

/-- Spec-side per-unit gradient channel, following the claim's words:
`start + (end - start) * i / (n-1)` per RGB channel with integer
truncation, the index clamped so it never exceeds `n-1`. -/
def specGradChannel (sv ev : Nat) (n i : Int) : Int :=
  (sv : Int) + Int.tdiv (((ev : Int) - (sv : Int)) * (min i (n - 1))) (n - 1)

/-- Spec-side rainbow palette index, following the claim's words:
`floor(i * (palette_len - 1) / (n-1))`. -/
def specRainbowPos (n i : Int) : Int := Int.tdiv (i * 20) (n - 1)

/-- C3 (amended): for a gradient/rainbow span of `N ≥ 2` visible units, the
unit at index 0 receives exactly the start color (resp. the first palette
entry, `RAINBOW[0] = 196`) and the unit at index `N-1` receives exactly the
end color (resp. the last entry, `RAINBOW[20] = 201`); for indices in
range, the per-unit color follows the claim's interpolation formulas.  (For
`N = 1` the code divides by the guard value 1 instead of `N-1 = 0` and the
single unit receives the START color, not the end color — see the
counterexample.) -/
theorem gradient_rainbow_endpoints (sv ev : Nat) (N idx : Int) (hN : 2 ≤ N)
    (h0 : 0 ≤ idx) (hle : idx ≤ N - 1) :
    gradChannel sv ev N 0 = sv ∧
    gradChannel sv ev N (N - 1) = ev ∧
    gradChannel sv ev N idx = specGradChannel sv ev N idx ∧
    rainbowPos N 0 = 0 ∧
    rainbowPos N (N - 1) = 20 ∧
    rainbowPos N idx = specRainbowPos N idx ∧
    RAINBOW[0]? = some 196 ∧ RAINBOW[20]? = some 201 ∧ RAINBOW.length = 21 := by
  have hn : (if 1 < N then N - 1 else 1) = N - 1 := if_pos (by omega)
  have hne : N - 1 ≠ 0 := by omega
  refine ⟨?_, ?_, ?_, ?_, ?_, ?_, rfl, rfl, rfl⟩
  · rw [gradChannel, hn, if_neg (by omega), mul_zero, Int.zero_tdiv, add_zero]
  · rw [gradChannel, hn, if_neg (by omega), Int.mul_tdiv_cancel _ hne]
    omega
  · rw [gradChannel, specGradChannel, hn, if_neg (by omega), min_eq_left hle]
  · rw [rainbowPos, hn, zero_mul, Int.zero_tdiv, if_neg (by omega)]
  · rw [rainbowPos, hn, Int.mul_tdiv_cancel_left _ hne, if_neg (by omega)]
  · rw [rainbowPos, specRainbowPos, hn, if_neg ?_]
    rw [not_lt, Int.tdiv_eq_ediv (by positivity) (by omega)]
    calc idx * 20 / (N - 1) ≤ (N - 1) * 20 / (N - 1) := by
          apply Int.ediv_le_ediv (by omega)
          exact mul_le_mul_of_nonneg_right hle (by norm_num)
      _ = 20 := Int.mul_ediv_cancel_left _ hne

theorem gradient_rainbow_endpoints_witness :
    gradChannel 255 0 5 0 = 255 ∧
    gradChannel 255 0 5 (5 - 1) = 0 ∧
    gradChannel 255 0 5 4 = specGradChannel 255 0 5 4 ∧
    rainbowPos 5 0 = 0 ∧
    rainbowPos 5 (5 - 1) = 20 ∧
    rainbowPos 5 4 = specRainbowPos 5 4 ∧
    RAINBOW[0]? = some 196 ∧ RAINBOW[20]? = some 201 ∧ RAINBOW.length = 21 :=
  gradient_rainbow_endpoints 255 0 5 4 (by decide) (by decide) (by decide)

/-- C3 counterexample: a reachable gradient span of pre-scanned length
`N = 1` (e.g. `"[gradient red blue]x[/gradient]"`): the unit at index
`N - 1 = 0` receives the start color `(255,0,0)`, not the end color
`(0,0,255)` the claim requires. -/
theorem gradient_span_one_endpoint_cex :
    gradColor ⟨⟨255, 0, 0⟩, ⟨0, 0, 255⟩, 1, 0⟩ = (255, 0, 0) ∧
    gradColor ⟨⟨255, 0, 0⟩, ⟨0, 0, 255⟩, 1, 0⟩ ≠ (0, 0, 255) := by decide

/- ------------------------------------------------------------------ -/
/- C6: [/gradient] and [/rainbow] close tags                          -/
/- ------------------------------------------------------------------ -/

theorem emit_close_rainbow_eq (cfg : Config) (st : EmitState) :
    emit_close_tag cfg st (b "rainbow") =
      { core := { st.core with
          tag := { st.core.tag with styles := st.core.tag.styles &&& (255 ^^^ 64) },
          rainbowIdx := 0, rainbowLen := 0 },
        out := st.out ++ RESET ++
          reapply_state { st.core.tag with styles := st.core.tag.styles &&& (255 ^^^ 64) } } := by
  rw [emit_close_tag, if_neg (by decide), if_neg (by decide), if_pos rfl]

theorem emit_close_gradient_eq (cfg : Config) (st : EmitState) :
    emit_close_tag cfg st (b "gradient") =
      { core := { st.core with
          tag := { st.core.tag with styles := st.core.tag.styles &&& (255 ^^^ 128) } },
        out := st.out ++ RESET ++
          reapply_state { st.core.tag with styles := st.core.tag.styles &&& (255 ^^^ 128) } } := by
  rw [emit_close_tag, if_neg (by decide), if_pos (by decide)]

/-- C6 (amended): `[/rainbow]` clears the rainbow style bit, resets the
rainbow index counters (current index and span length) to zero, and emits a
full reset followed by re-application of the remaining TagState.
`[/gradient]` clears the gradient style bit and emits reset + reapply, but
leaves the gradient index/length counters (and colors) UNCHANGED — they are
re-zeroed only when a new `[gradient c1 c2]` tag opens.  Foreground and
background codes are untouched by both. -/
theorem close_effect_tag_state (cfg : Config) (st : EmitState) :
    ((emit_close_tag cfg st (b "rainbow")).core.tag.styles
        = st.core.tag.styles &&& (255 ^^^ 64) ∧
     (emit_close_tag cfg st (b "rainbow")).core.tag.fg = st.core.tag.fg ∧
     (emit_close_tag cfg st (b "rainbow")).core.tag.bg = st.core.tag.bg ∧
     (emit_close_tag cfg st (b "rainbow")).core.rainbowIdx = 0 ∧
     (emit_close_tag cfg st (b "rainbow")).core.rainbowLen = 0 ∧
     (emit_close_tag cfg st (b "rainbow")).core.grad = st.core.grad ∧
     (emit_close_tag cfg st (b "rainbow")).out = st.out ++ RESET ++
        reapply_state { st.core.tag with styles := st.core.tag.styles &&& (255 ^^^ 64) }) ∧
    ((emit_close_tag cfg st (b "gradient")).core.tag.styles
        = st.core.tag.styles &&& (255 ^^^ 128) ∧
     (emit_close_tag cfg st (b "gradient")).core.tag.fg = st.core.tag.fg ∧
     (emit_close_tag cfg st (b "gradient")).core.tag.bg = st.core.tag.bg ∧
     (emit_close_tag cfg st (b "gradient")).core.rainbowIdx = st.core.rainbowIdx ∧
     (emit_close_tag cfg st (b "gradient")).core.rainbowLen = st.core.rainbowLen ∧
     (emit_close_tag cfg st (b "gradient")).core.grad = st.core.grad ∧
     (emit_close_tag cfg st (b "gradient")).out = st.out ++ RESET ++
        reapply_state { st.core.tag with styles := st.core.tag.styles &&& (255 ^^^ 128) }) := by
  rw [emit_close_rainbow_eq, emit_close_gradient_eq]
  exact ⟨⟨rfl, rfl, rfl, rfl, rfl, rfl, rfl⟩, ⟨rfl, rfl, rfl, rfl, rfl, rfl, rfl⟩⟩

/-- C6 counterexample: with the gradient effect mid-span (index 2 of span
5), `[/gradient]` leaves the gradient counters at their old values instead
of resetting them to zero as the claim states. -/
theorem close_gradient_counters_cex :
    (emit_close_tag ⟨true, none, none⟩
      { core := { tag := { fg := none, bg := none, styles := 128 },
                  rainbowIdx := 0, rainbowLen := 0,
                  grad := { gstart := ⟨255, 0, 0⟩, gend := ⟨0, 0, 255⟩,
                            len := 5, idx := 2 } },
        out := [] } (b "gradient")).core.grad.idx = 2 ∧
    (emit_close_tag ⟨true, none, none⟩
      { core := { tag := { fg := none, bg := none, styles := 128 },
                  rainbowIdx := 0, rainbowLen := 0,
                  grad := { gstart := ⟨255, 0, 0⟩, gend := ⟨0, 0, 255⟩,
                            len := 5, idx := 2 } },
        out := [] } (b "gradient")).core.grad.len = 5 ∧
    (2 : Int) ≠ 0 ∧ (5 : Int) ≠ 0 := by decide

/- ------------------------------------------------------------------ -/
/- C7: numeric fg:/bg: color clamping                                 -/
/- ------------------------------------------------------------------ -/

theorem dropWhile_eq_self_of_none {f : Nat → Bool} {l : List Nat}
    (h : ∀ c ∈ l, ¬ f c = true) : l.dropWhile f = l := by
  cases l with
  | nil => rfl
  | cons x xs =>
    rw [List.dropWhile_cons, if_neg]
    simpa using h x (by simp)

theorem trimTrail_eq_self_of_none {f : Nat → Bool} {l : List Nat}
    (h : ∀ c ∈ l, ¬ f c = true) : trimTrail f l = l := by
  rw [trimTrail, dropWhile_eq_self_of_none (fun c hc => h c (List.mem_reverse.mp hc)),
    List.reverse_reverse]

theorem clamp255_le (v : Int) : clamp255 v ≤ 255 := by
  rw [clamp255]; omega

theorem clamp255_cast (v : Int) : (clamp255 v : Int) = max 0 (min 255 v) := by
  rw [clamp255]; omega

/-- C7: every integer appearing in a `fg:<n>` (resp. `bg:<n>`) word of an
open tag is clamped into [0,255] and rendered as a 256-color escape, never
rejected: the word sets the active fg (resp. bg) to the numeric code
`max 0 (min 255 n)` and appends exactly that escape.  In particular
rendering `"[fg:999]x[/]"` emits the 256-color foreground code 255. -/
theorem numeric_color_clamped :
    (∀ (t : TagState) (out l : List Nat) (v : Int), parseLeadingInt l = some v →
      applyFgWord (t, out) (b "fg:" ++ l) =
        ({ t with fg := some (.num (clamp255 v)) }, out ++ numFgBytes (clamp255 v))) ∧
    (∀ (t : TagState) (out l : List Nat) (v : Int), parseLeadingInt l = some v →
      (∀ c ∈ l, ¬ isSpaceB c = true) →
      applyBg (t, out) (b "bg:" ++ l) =
        ({ t with bg := some (.num (clamp255 v)) }, out ++ numBgBytes (clamp255 v))) ∧
    (∀ v : Int, (clamp255 v : Int) = max 0 (min 255 v) ∧ clamp255 v ≤ 255) ∧
    (ansi_emit ⟨true, none, none⟩ (b "[fg:999]x[/]")).out =
      esc "[38;5;255m" ++ b "x" ++ RESET := by
  have hmemf : (58 : Nat) ∈ b "fg:" := by decide
  have hmemb : (58 : Nat) ∈ b "bg:" := by decide
  have hlen : ∀ l : List Nat, ∀ v : Int, parseLeadingInt l = some v → l ≠ [] := by
    intro l v h hl
    subst hl
    simp [parseLeadingInt] at h
  refine ⟨?_, ?_, fun v => ⟨clamp255_cast v, clamp255_le v⟩, by decide⟩
  · intro t out l v hv
    have hlk : lookup_attr (b "fg:" ++ l) = none :=
      lookup_attr_no_colon (List.mem_append_left _ hmemf)
    rw [applyFgWord]
    rw [hlk]
    have hcond : 3 < (b "fg:" ++ l).length ∧ (b "fg:" ++ l).take 3 = b "fg:" := by
      constructor
      · have hne := hlen l v hv
        have h3 : (b "fg:").length = 3 := rfl
        have hl0 : l.length ≠ 0 := fun h0 => hne (List.length_eq_zero.mp h0)
        simp only [List.length_append, h3]
        omega
      · exact List.take_left (b "fg:") l
    rw [if_pos hcond]
    have hdrop : (b "fg:" ++ l).drop 3 = l := List.drop_left (b "fg:") l
    rw [hdrop, hv]
  · intro t out l v hv hsp
    have hlk : lookup_attr (b "bg:" ++ l) = none :=
      lookup_attr_no_colon (List.mem_append_left _ hmemb)
    have hnosp : ∀ c ∈ b "bg:" ++ l, ¬ isSpaceB c = true := by
      intro c hc
      rcases List.mem_append.mp hc with h1 | h1
      · fin_cases h1 <;> decide
      · exact hsp c h1
    rw [applyBg]
    rw [dropWhile_eq_self_of_none hnosp, trimTrail_eq_self_of_none hnosp, hlk]
    have hcond : 3 < (b "bg:" ++ l).length ∧ (b "bg:" ++ l).take 3 = b "bg:" := by
      constructor
      · have hne := hlen l v hv
        have h3 : (b "bg:").length = 3 := rfl
        have hl0 : l.length ≠ 0 := fun h0 => hne (List.length_eq_zero.mp h0)
        simp only [List.length_append, h3]
        omega
      · exact List.take_left (b "bg:") l
    rw [if_pos hcond]
    have hdrop : (b "bg:" ++ l).drop 3 = l := List.drop_left (b "bg:") l
    rw [hdrop, hv]

theorem numeric_color_clamped_witness :
    applyFgWord (⟨none, none, 0⟩, []) (b "fg:" ++ b "999") =
      (⟨some (.num (clamp255 999)), none, 0⟩, [] ++ numFgBytes (clamp255 999)) :=
  numeric_color_clamped.1 ⟨none, none, 0⟩ [] (b "999") 999 (by decide)

/- ------------------------------------------------------------------ -/
/- C8: bar composer fraction clamp and cell counts                    -/
/- ------------------------------------------------------------------ -/

theorem barFraction_bounds (value vmin vmax : ℚ) :
    0 ≤ barFraction value vmin vmax ∧ barFraction value vmin vmax ≤ 1 := by
  rw [barFraction]
  split_ifs with h1 h2
  · norm_num
  · norm_num
  · exact ⟨not_lt.mp h1, not_lt.mp h2⟩

theorem barEighths_bounds (value vmin vmax : ℚ) (width : Int) (hw : 1 ≤ width) :
    0 ≤ barEighths value vmin vmax width ∧
    barEighths value vmin vmax width ≤ 8 * width := by
  obtain ⟨hf0, hf1⟩ := barFraction_bounds value vmin vmax
  constructor
  · rw [barEighths]
    rw [Int.le_floor]
    push_cast
    have : (0 : ℚ) ≤ barFraction value vmin vmax * (width : ℚ) * 8 := by
      apply mul_nonneg (mul_nonneg hf0 _) (by norm_num)
      exact_mod_cast le_trans (by norm_num) hw
    linarith
  · rw [barEighths]
    have hle : barFraction value vmin vmax * (width : ℚ) * 8 + 1 / 2 ≤
        ((8 * width : Int) : ℚ) + 1 / 2 := by
      have hw0 : (0 : ℚ) ≤ (width : ℚ) * 8 := by
        apply mul_nonneg _ (by norm_num)
        exact_mod_cast le_trans (by norm_num) hw
      have := mul_le_mul_of_nonneg_right hf1 hw0
      push_cast
      rw [mul_assoc]
      linarith
    calc ⌊barFraction value vmin vmax * (width : ℚ) * 8 + 1 / 2⌋
        ≤ ⌊((8 * width : Int) : ℚ) + 1 / 2⌋ := Int.floor_le_floor hle
      _ = 8 * width + ⌊(1 / 2 : ℚ)⌋ := Int.floor_int_add _ _
      _ = 8 * width := by
          rw [Int.floor_eq_zero_iff.mpr (by constructor <;> norm_num)]
          omega

/-- C8: for every bar with `width ≥ 1` and any value/min/max, the fill
fraction is clamped into [0,1] before the eighths conversion (with the
degenerate `max = min` range yielding fraction 1, a full bar rather than an
error), the filled-cell count equals `⌈eighths/8⌉`, and filled cells plus
empty track cells always equals `width`. -/
theorem bar_cells_and_clamp (value vmin vmax : ℚ) (width : Int) (hw : 1 ≤ width) :
    0 ≤ barFraction value vmin vmax ∧
    barFraction value vmin vmax ≤ 1 ∧
    (vmax = vmin → barFraction value vmin vmax = 1) ∧
    barFilled (barEighths value vmin vmax width) =
      ⌈((barEighths value vmin vmax width : Int) : ℚ) / 8⌉ ∧
    0 ≤ barFilled (barEighths value vmin vmax width) ∧
    barFilled (barEighths value vmin vmax width) ≤ width ∧
    barFilled (barEighths value vmin vmax width) +
      barEmpty width (barFilled (barEighths value vmin vmax width)) = width := by
  obtain ⟨hf0, hf1⟩ := barFraction_bounds value vmin vmax
  obtain ⟨he0, he8⟩ := barEighths_bounds value vmin vmax width hw
  set e := barEighths value vmin vmax width with hedef
  have hdecomp : 8 * ((e + 7) / 8) + (e + 7) % 8 = e + 7 := Int.ediv_add_emod _ _
  have hm0 : 0 ≤ (e + 7) % 8 := Int.emod_nonneg _ (by norm_num)
  have hm8 : (e + 7) % 8 < 8 := Int.emod_lt_of_pos _ (by norm_num)
  refine ⟨hf0, hf1, ?_, ?_, ?_, ?_, ?_⟩
  · intro hd
    rw [barFraction, barFractionRaw, if_pos hd]
    norm_num
  · rw [barFilled, eq_comm, Int.ceil_eq_iff]
    constructor
    · rw [lt_div_iff₀ (by norm_num : (0 : ℚ) < 8)]
      exact_mod_cast (by omega : ((e + 7) / 8 - 1) * 8 < e)
    · rw [div_le_iff₀ (by norm_num : (0 : ℚ) < 8)]
      exact_mod_cast (by omega : e ≤ (e + 7) / 8 * 8)
  · rw [barFilled]; omega
  · rw [barFilled]; omega
  · rw [barEmpty]; omega

theorem bar_cells_and_clamp_witness :
    0 ≤ barFraction 50 0 100 ∧
    barFraction 50 0 100 ≤ 1 ∧
    ((100 : ℚ) = 0 → barFraction 50 0 100 = 1) ∧
    barFilled (barEighths 50 0 100 4) = ⌈((barEighths 50 0 100 4 : Int) : ℚ) / 8⌉ ∧
    0 ≤ barFilled (barEighths 50 0 100 4) ∧
    barFilled (barEighths 50 0 100 4) ≤ 4 ∧
    barFilled (barEighths 50 0 100 4) + barEmpty 4 (barFilled (barEighths 50 0 100 4)) = 4 :=
  bar_cells_and_clamp 50 0 100 4 (by decide)

/- ------------------------------------------------------------------ -/
/- C9 / C10: bar composer capacity and tag integrity                  -/
/- ------------------------------------------------------------------ -/

theorem barBlock_length {f : Nat} (h1 : 1 ≤ f) (h8 : f ≤ 8) :
    (barBlock f).length = 3 := by
  interval_cases f <;> rfl

theorem emitBlocks_length (fuel e room : Nat) :
    (emitBlocks fuel e room).length ≤ room := by
  induction fuel generalizing e room with
  | zero => simp [emitBlocks]
  | succ n ih =>
    rw [emitBlocks]
    split_ifs with h1 h2
    · simp
    · simp
    · rw [List.length_append, barBlock_length (by omega) (min_le_right e 8)]
      have := ih (e - min e 8) (room - 3)
      omega

theorem emitTrack_length (n : Nat) (tk : List Nat) (room : Nat) :
    (emitTrack n tk room).length ≤ room := by
  induction n generalizing room with
  | zero => simp [emitTrack]
  | succ n ih =>
    rw [emitTrack]
    split_ifs with h
    · rw [List.length_append]
      have := ih (room - tk.length)
      omega
    · simp

theorem barBlock_no_brackets (f : Nat) : ∀ x ∈ barBlock f, x ≠ 91 ∧ x ≠ 93 := by
  unfold barBlock
  split <;> decide

theorem barTrack_no_brackets (i : Nat) : ∀ x ∈ barTrack i, x ≠ 91 ∧ x ≠ 93 := by
  unfold barTrack
  split <;> decide

theorem emitBlocks_no_brackets (fuel e room : Nat) :
    ∀ x ∈ emitBlocks fuel e room, x ≠ 91 ∧ x ≠ 93 := by
  induction fuel generalizing e room with
  | zero => simp [emitBlocks]
  | succ n ih =>
    rw [emitBlocks]
    split_ifs with h1 h2
    · simp
    · simp
    · intro x hx
      rcases List.mem_append.mp hx with h | h
      · exact barBlock_no_brackets _ x h
      · exact ih _ _ x h

theorem emitTrack_no_brackets (n : Nat) (tk : List Nat) (room : Nat)
    (htk : ∀ x ∈ tk, x ≠ 91 ∧ x ≠ 93) :
    ∀ x ∈ emitTrack n tk room, x ≠ 91 ∧ x ≠ 93 := by
  induction n generalizing room with
  | zero => simp [emitTrack]
  | succ n ih =>
    rw [emitTrack]
    split_ifs with h
    · intro x hx
      rcases List.mem_append.mp hx with h1 | h1
      · exact htk x h1
      · exact ih _ x h1
    · simp

theorem barBody_length (cap : Nat) (tk : List Nat) (eN emN : Nat)
    (resolved : Option (List Nat)) :
    (barBody cap tk eN emN resolved).length ≤ cap := by
  cases resolved with
  | none =>
    rw [barBody, List.length_append]
    have h1 := emitBlocks_length eN eN cap
    have h2 := emitTrack_length emN tk (cap - (emitBlocks eN eN cap).length)
    omega
  | some cname =>
    rw [barBody]
    split_ifs with hfits
    · have hb := emitBlocks_length eN eN ((cap - (cname.length + 3)) - (cname.length + 2))
      have ht := emitTrack_length emN tk (cap - ((cname.length + 2) +
        (emitBlocks eN eN ((cap - (cname.length + 3)) - (cname.length + 2))).length +
        (cname.length + 3)))
      simp only [List.length_append, List.length_cons, List.length_nil]
      omega
    · have h1 := emitBlocks_length eN eN cap
      have h2 := emitTrack_length emN tk (cap - (emitBlocks eN eN cap).length)
      simp only [List.length_append]
      omega

/-- C10: `ansi_bar` never writes beyond the caller's buffer: with a NULL
buffer or zero capacity it returns the empty string without writing, and
otherwise the produced string has length at most `buf_size - 1` (one byte
is reserved for the terminating NUL, so all writes stay inside the first
`buf_size` bytes). -/
theorem ansi_bar_respects_buffer (bufNull : Bool) (bufSize : Nat)
    (color : Option (List Nat)) (width track : Int) (value vmin vmax : ℚ) :
    (bufNull = true ∨ bufSize = 0 →
      ansi_bar bufNull bufSize color width track value vmin vmax = []) ∧
    (ansi_bar bufNull bufSize color width track value vmin vmax).length ≤ bufSize - 1 := by
  constructor
  · intro h
    rw [ansi_bar.eq_def, if_pos (by rcases h with h | h <;> simp [h])]
  · rw [ansi_bar.eq_def]
    split_ifs with h1 h2 h3
    · simp
    · simp
    · simp
    all_goals exact barBody_length _ _ _ _ _

theorem ansi_bar_respects_buffer_witness :
    (true = true ∨ 128 = 0 → ansi_bar true 128 (some (b "green")) 4 1 50 0 100 = []) ∧
    (ansi_bar true 128 (some (b "green")) 4 1 50 0 100).length ≤ 128 - 1 :=
  ansi_bar_respects_buffer true 128 (some (b "green")) 4 1 50 0 100

theorem barBody_fits_structure (cap : Nat) (tk : List Nat) (eN emN : Nat)
    (cname : List Nat)
    (hfit : (cname.length + 2) + (cname.length + 3) ≤ cap)
    (htk : ∀ x ∈ tk, x ≠ 91 ∧ x ≠ 93) :
    ∃ blocks trackRun,
      barBody cap tk eN emN (some cname) =
        (91 :: cname ++ [93]) ++ blocks ++ (91 :: 47 :: cname ++ [93]) ++ trackRun ∧
      (∀ x ∈ blocks, x ≠ 91 ∧ x ≠ 93) ∧ (∀ x ∈ trackRun, x ≠ 91 ∧ x ≠ 93) ∧
      (cname.length + 2) + blocks.length + (cname.length + 3) + trackRun.length
        ≤ cap := by
  refine ⟨emitBlocks eN eN ((cap - (cname.length + 3)) - (cname.length + 2)),
    emitTrack emN tk (cap - ((cname.length + 2) +
      (emitBlocks eN eN ((cap - (cname.length + 3)) - (cname.length + 2))).length +
      (cname.length + 3))), ?_, ?_, ?_, ?_⟩
  · rw [barBody, if_pos hfit]
  · exact emitBlocks_no_brackets _ _ _
  · exact emitTrack_no_brackets _ _ _ htk
  · have hb := emitBlocks_length eN eN ((cap - (cname.length + 3)) - (cname.length + 2))
    have ht := emitTrack_length emN tk (cap - ((cname.length + 2) +
      (emitBlocks eN eN ((cap - (cname.length + 3)) - (cname.length + 2))).length +
      (cname.length + 3)))
    omega

theorem barBody_nofit_no_brackets (cap : Nat) (tk : List Nat) (eN emN : Nat)
    (r : Option (List Nat))
    (hr : ∀ cname, r = some cname → ¬ (cname.length + 2) + (cname.length + 3) ≤ cap)
    (htk : ∀ x ∈ tk, x ≠ 91 ∧ x ≠ 93) :
    ∀ x ∈ barBody cap tk eN emN r, x ≠ 91 ∧ x ≠ 93 := by
  cases r with
  | none =>
    rw [barBody]
    intro x hx
    rcases List.mem_append.mp hx with h | h
    · exact emitBlocks_no_brackets _ _ _ x h
    · exact emitTrack_no_brackets _ _ _ htk x h
  | some cname =>
    rw [barBody, if_neg (hr cname rfl)]
    intro x hx
    rcases List.mem_append.mp hx with h | h
    · exact emitBlocks_no_brackets _ _ _ x h
    · exact emitTrack_no_brackets _ _ _ htk x h

theorem ansi_bar_eq_barBody (bufSize : Nat) (color : Option (List Nat))
    (width track : Int) (value vmin vmax : ℚ)
    (hs : 2 ≤ bufSize) (hw : 1 ≤ width) :
    ansi_bar false bufSize color width track value vmin vmax =
      barBody (bufSize - 1)
        (barTrack (if track < 0 ∨ 6 ≤ track then 0 else track.toNat))
        (barEighths value vmin vmax width).toNat
        (barEmpty width (barFilled (barEighths value vmin vmax width))).toNat
        (match color with
         | some cname =>
           match lookup_attr cname with
           | some (_, e) => if e.fg ≠ none then some cname else none
           | none => none
         | none => none) := by
  rw [ansi_bar.eq_def, if_neg (by simp; omega), if_neg (by omega), if_neg (by omega)]

/-- C9: for every `ansi_bar` call with a resolvable color name, the opening
color tag is emitted exactly when both `[color]` and `[/color]` fit
entirely within the remaining capacity, with the closing tag's bytes
reserved before the filled-cell loop: when they fit, the output is the
complete opening tag, whole block glyphs, the complete closing tag, then
whole track glyphs, all within capacity; otherwise (unfit or unresolvable)
the output contains no bracket byte at all.  So the produced string never
contains a partial or truncated tag, regardless of buffer size. -/
theorem ansi_bar_no_partial_tags (bufSize : Nat) (color : Option (List Nat))
    (width track : Int) (value vmin vmax : ℚ)
    (hw : 1 ≤ width) (hs : 2 ≤ bufSize) :
    (∀ cname i e, color = some cname → lookup_attr cname = some (i, e) →
      e.fg ≠ none → 2 * cname.length + 5 ≤ bufSize - 1 →
      ∃ blocks trackRun,
        ansi_bar false bufSize color width track value vmin vmax =
          (91 :: cname ++ [93]) ++ blocks ++ (91 :: 47 :: cname ++ [93]) ++ trackRun ∧
        (∀ x ∈ blocks, x ≠ 91 ∧ x ≠ 93) ∧ (∀ x ∈ trackRun, x ≠ 91 ∧ x ≠ 93) ∧
        (cname.length + 2) + blocks.length + (cname.length + 3) + trackRun.length
          ≤ bufSize - 1) ∧
    ((∀ cname i e, color = some cname → lookup_attr cname = some (i, e) →
        e.fg ≠ none → ¬ 2 * cname.length + 5 ≤ bufSize - 1) →
      ∀ x ∈ ansi_bar false bufSize color width track value vmin vmax,
        x ≠ 91 ∧ x ≠ 93) := by
  rw [ansi_bar_eq_barBody bufSize color width track value vmin vmax hs hw]
  constructor
  · intro cname i e hc hlk hfg hfit
    subst hc
    dsimp only
    rw [hlk]
    dsimp only
    rw [if_pos hfg]
    exact barBody_fits_structure _ _ _ _ _ (by omega) (barTrack_no_brackets _)
  · intro hno
    apply barBody_nofit_no_brackets _ _ _ _ _ _ (barTrack_no_brackets _)
    intro cname hr
    cases color with
    | none => simp at hr
    | some cn =>
      dsimp only at hr
      cases hlk : lookup_attr cn with
      | none => rw [hlk] at hr; simp at hr
      | some p =>
        obtain ⟨i, e⟩ := p
        rw [hlk] at hr
        dsimp only at hr
        by_cases hfg : e.fg ≠ none
        · rw [if_pos hfg] at hr
          have hcc : cn = cname := Option.some.inj hr
          have := hno cn i e rfl hlk hfg
          rw [← hcc]
          omega
        · rw [if_neg hfg] at hr
          simp at hr

theorem ansi_bar_no_partial_tags_witness :
    ∃ blocks trackRun,
      ansi_bar false 128 (some (b "green")) 4 1 50 0 100 =
        (91 :: b "green" ++ [93]) ++ blocks ++ (91 :: 47 :: b "green" ++ [93]) ++
          trackRun ∧
      (∀ x ∈ blocks, x ≠ 91 ∧ x ≠ 93) ∧ (∀ x ∈ trackRun, x ≠ 91 ∧ x ≠ 93) ∧
      ((b "green").length + 2) + blocks.length + ((b "green").length + 3) +
        trackRun.length ≤ 128 - 1 :=
  (ansi_bar_no_partial_tags 128 (some (b "green")) 4 1 50 0 100
    (by decide) (by decide)).1 (b "green") 2
    ⟨[103, 114, 101, 101, 110], some [27, 91, 51, 50, 109], some [27, 91, 52, 50, 109],
      0, ⟨0, 205, 0⟩⟩ rfl rfl (by decide) (by decide)

/- ------------------------------------------------------------------ -/
/- Tokenizer infrastructure: progress and fuel irrelevance            -/
/- ------------------------------------------------------------------ -/

theorem idxOfByte_lt {c : Nat} {l : List Nat} {i : Nat}
    (h : idxOfByte c l = some i) : i < l.length := by
  induction l generalizing i with
  | nil => simp [idxOfByte] at h
  | cons x xs ih =>
    rw [idxOfByte] at h
    split at h
    · cases h; simp
    · cases hx : idxOfByte c xs with
      | none => rw [hx] at h; simp at h
      | some j =>
        rw [hx] at h
        simp at h
        have := ih hx
        simp only [List.length_cons]
        omega

theorem dropWhile_length_le (f : Nat → Bool) (l : List Nat) :
    (l.dropWhile f).length ≤ l.length := by
  induction l with
  | nil => simp
  | cons x xs ih =>
    rw [List.dropWhile_cons]
    split_ifs
    · simp only [List.length_cons]
      omega
    · simp

/-- Every token consumes at least one byte of input. -/
theorem next_token_shrinks {p : List Nat} {t : MarkupToken} {r : List Nat}
    (h : next_markup_token p = some (t, r)) : r.length < p.length := by
  match p with
  | [] => simp [next_markup_token] at h
  | c1 :: rest =>
    have hdw : (rest.dropWhile isCont).length ≤ rest.length :=
      dropWhile_length_le _ _
    have hchar : ∀ t' r', charTok c1 rest = (t', r') → r'.length < (c1 :: rest).length := by
      intro t' r' hc
      rw [charTok] at hc
      obtain ⟨-, hr⟩ := Prod.mk.injEq .. ▸ hc
      subst hr
      simp only [List.length_cons]
      omega
    rw [next_markup_token] at h
    split_ifs at h with h1 h2 h3 h4 h5
    · obtain ⟨-, hr⟩ := Prod.mk.injEq .. ▸ Option.some.inj h
      subst hr
      simp only [List.length_tail, List.length_cons]
      omega
    · obtain ⟨-, hr⟩ := Prod.mk.injEq .. ▸ Option.some.inj h
      subst hr
      simp only [List.length_tail, List.length_cons]
      omega
    · obtain ⟨-, hr⟩ := Prod.mk.injEq .. ▸ Option.some.inj h
      subst hr
      simp only [List.length_tail, List.length_cons]
      omega
    · split at h
      · rename_i i hi
        obtain ⟨-, hr⟩ := Prod.mk.injEq .. ▸ Option.some.inj h
        subst hr
        simp only [List.length_drop, List.length_cons]
        omega
      · exact hchar _ _ (Option.some.inj h)
    · split at h
      · rename_i i hi
        split_ifs at h with hge
        · split at h
          · obtain ⟨-, hr⟩ := Prod.mk.injEq .. ▸ Option.some.inj h
            subst hr
            simp only [List.length_drop, List.length_cons]
            omega
          · split at h
            · obtain ⟨-, hr⟩ := Prod.mk.injEq .. ▸ Option.some.inj h
              subst hr
              simp only [List.length_drop, List.length_cons]
              omega
            · exact hchar _ _ (Option.some.inj h)
        · exact hchar _ _ (Option.some.inj h)
      · exact hchar _ _ (Option.some.inj h)
    · exact hchar _ _ (Option.some.inj h)

/- ------------------------------------------------------------------ -/
/- C2: the gradient/rainbow span pre-scan                             -/
/- ------------------------------------------------------------------ -/

/-- Spec-side stopping test, following the AMENDED claim's words: the scan
stops at an exact-name closing tag for the effect (the name optionally
followed by a space) or at the bare close tag `[/]`. -/
def specStopAmended (name : List Nat) : MarkupToken → Bool
  | .tag content =>
    content.head? == some 47 &&
      (content.length == 1 ||
        ((content.drop 1).take name.length == name &&
         (content.length == name.length + 1 || content[name.length + 1]? == some 32)))
  | _ => false

/-- Spec-side visible-unit weight, following the claim's words: plain
space/tab/newline characters do not count, other plain characters count 1,
literal escapes, shortcodes and codepoints count 1, nested tags count 0. -/
def specVisWeight : MarkupToken → Nat
  | .tag _ => 0
  | .chr c _ => if c = 32 ∨ c = 9 ∨ c = 10 then 0 else 1
  | _ => 1

/-- Spec-side span count per the amended claim: tokenize the remaining
input (without consuming it), take the tokens before the first stopping
close tag, sum their visible-unit weights, minimum 1. -/
def specCountAmended (name p : List Nat) : Nat :=
  max 1 (((tokensF p.length p).takeWhile
    (fun t => ¬ specStopAmended name t)).map specVisWeight).sum

/-- Spec-side stopping test per the ORIGINAL claim's words: only an
exact-name closing tag for the effect stops the scan (the bare `[/]` does
not). -/
def specStopOriginal (name : List Nat) : MarkupToken → Bool
  | .tag content =>
    content.head? == some 47 &&
      ((content.drop 1).take name.length == name &&
       (content.length == name.length + 1 || content[name.length + 1]? == some 32))
  | _ => false

/-- Spec-side visible-unit weight per the ORIGINAL claim's words:
whitespace characters (C `isspace`) do not count. -/
def specVisWeightOriginal : MarkupToken → Nat
  | .tag _ => 0
  | .chr c _ => if isSpaceB c then 0 else 1
  | _ => 1

/-- Spec-side span count per the original claim. -/
def specCountOriginal (name p : List Nat) : Nat :=
  max 1 (((tokensF p.length p).takeWhile
    (fun t => ¬ specStopOriginal name t)).map specVisWeightOriginal).sum

theorem specStopAmended_eq_isStopTag (name content : List Nat) :
    specStopAmended name (.tag content) = isStopTag name content := by
  rw [specStopAmended, isStopTag]
  cases hh : (content.head? == some 47) with
  | false => rw [Bool.false_and, Bool.false_and]
  | true =>
    rw [Bool.true_and, Bool.true_and]
    cases h1 : (content.length == 1) with
    | true => rw [Bool.true_or, Bool.true_or]
    | false =>
      rw [Bool.false_or, Bool.false_or]
      cases hb : ((content.drop 1).take name.length == name) with
      | false => rw [Bool.false_and, Bool.and_false, Bool.false_and]
      | true =>
        have hcl : 1 ≤ content.length := by
          cases content
          · simp at hh
          · simp
        have hname : (content.drop 1).take name.length = name := eq_of_beq hb
        have hlen : name.length + 1 ≤ content.length := by
          have hlt := congrArg List.length hname
          simp only [List.length_take, List.length_drop] at hlt
          omega
        rw [Bool.true_and, Bool.and_true, decide_eq_true hlen, Bool.true_and]

theorem countVisWeight_eq_spec (t : MarkupToken) :
    countVisWeight t = specVisWeight t := by
  cases t with
  | chr c cont =>
    rw [countVisWeight, specVisWeight]
    by_cases h : c = 32 ∨ c = 9 ∨ c = 10
    · rw [if_neg (by tauto), if_pos h]
    · rw [if_pos (by tauto), if_neg h]
  | tag content => rfl
  | emo u => rfl
  | ucp cp => rfl
  | escBr c => rfl
  | escCol => rfl

theorem countLoop_eq_spec (name : List Nat) :
    ∀ fuel, ∀ {p : List Nat} (acc : Nat), p.length ≤ fuel →
      countLoop name fuel p acc =
        max 1 (acc + (((tokensF fuel p).takeWhile
          (fun t => ¬ specStopAmended name t)).map specVisWeight).sum) := by
  intro fuel
  induction fuel with
  | zero =>
    intro p acc hp
    have : p = [] := List.length_eq_zero.mp (by omega)
    subst this
    simp [countLoop, tokensF]
    omega
  | succ fuel ih =>
    intro p acc hp
    rw [countLoop, tokensF]
    cases hn : next_markup_token p with
    | none =>
      simp
      omega
    | some tr =>
      obtain ⟨t, r⟩ := tr
      have hlt := next_token_shrinks hn
      have hr : r.length ≤ fuel := by omega
      cases t with
      | tag content =>
        dsimp only
        by_cases hstop : isStopTag name content = true
        · rw [if_pos hstop,
            List.takeWhile_cons,
            if_neg (by simp [specStopAmended_eq_isStopTag, hstop])]
          simp
          omega
        · rw [Bool.not_eq_true] at hstop
          rw [if_neg (by simp [hstop]),
            List.takeWhile_cons,
            if_pos (by simp [specStopAmended_eq_isStopTag, hstop])]
          simp only [List.map_cons, List.sum_cons]
          rw [ih acc hr, show specVisWeight (.tag content) = 0 from rfl]
          omega
      | chr c cont =>
        dsimp only
        rw [List.takeWhile_cons,
          if_pos (by simp [show specStopAmended name (.chr c cont) = false from rfl])]
        simp only [List.map_cons, List.sum_cons]
        rw [ih (acc + countVisWeight (.chr c cont)) hr,
          countVisWeight_eq_spec (.chr c cont)]
        omega
      | emo u =>
        dsimp only
        rw [List.takeWhile_cons,
          if_pos (by simp [show specStopAmended name (.emo u) = false from rfl])]
        simp only [List.map_cons, List.sum_cons]
        rw [ih (acc + countVisWeight (.emo u)) hr, countVisWeight_eq_spec (.emo u)]
        omega
      | ucp cp =>
        dsimp only
        rw [List.takeWhile_cons,
          if_pos (by simp [show specStopAmended name (.ucp cp) = false from rfl])]
        simp only [List.map_cons, List.sum_cons]
        rw [ih (acc + countVisWeight (.ucp cp)) hr, countVisWeight_eq_spec (.ucp cp)]
        omega
      | escBr c =>
        dsimp only
        rw [List.takeWhile_cons,
          if_pos (by simp [show specStopAmended name (.escBr c) = false from rfl])]
        simp only [List.map_cons, List.sum_cons]
        rw [ih (acc + countVisWeight (.escBr c)) hr, countVisWeight_eq_spec (.escBr c)]
        omega
      | escCol =>
        dsimp only
        rw [List.takeWhile_cons,
          if_pos (by simp [show specStopAmended name .escCol = false from rfl])]
        simp only [List.map_cons, List.sum_cons]
        rw [ih (acc + countVisWeight .escCol) hr, countVisWeight_eq_spec .escCol]
        omega

/-- C2 (amended): whenever the span length of an active gradient/rainbow
effect is computed, `count_effect_chars` performs a pure forward scan of
the remaining unconsumed token stream (the tokenizer position is untouched:
the driver continues from the same remaining input), counting plain
characters other than space/tab/newline as 1 visible unit, literal escapes,
shortcodes and codepoints as 1 each, and skipping nested tags without
counting them, stopping exactly at the first closing tag that is either the
bare `[/]` or an exact-name close for the effect (name alone or name
followed by a space), or at the end of the stream; the result is the
visible-unit count with a minimum of 1. -/
theorem count_effect_chars_spec (name p : List Nat) :
    count_effect_chars name p = specCountAmended name p ∧
    1 ≤ count_effect_chars name p := by
  have h := countLoop_eq_spec name p.length (p := p) 0 le_rfl
  rw [count_effect_chars, specCountAmended]
  constructor
  · rw [h]
    omega
  · rw [h]
    omega

/-- C2 counterexample: the scan stops at the bare `[/]` too (count 2 on
`"ab[/]cd"`, where the claim's exact-name-only rule gives 4), and a
carriage return counts as visible even though it is whitespace (count 2 on
`"\r a"`-like input, where the claim's whitespace rule gives 1). -/
theorem count_effect_chars_cex :
    count_effect_chars (b "gradient") (b "ab[/]cd") = 2 ∧
    specCountOriginal (b "gradient") (b "ab[/]cd") = 4 ∧
    count_effect_chars (b "gradient") (b "\ra") = 2 ∧
    specCountOriginal (b "gradient") (b "\ra") = 1 := by decide

/- ------------------------------------------------------------------ -/
/- Emitter infrastructure: state preservation over plain text         -/
/- ------------------------------------------------------------------ -/

theorem emit_char_color_tag (cfg : Config) (st : EmitState) :
    (emit_char_color cfg st).core.tag = st.core.tag := by
  rw [emit_char_color]
  split_ifs <;> rfl

/-- Tokens other than tags never change the tag state. -/
theorem processToken_nonTag_tag (cfg : Config) (st : EmitState) (t : MarkupToken)
    (rest : List Nat) (h : ∀ content, t ≠ MarkupToken.tag content) :
    (processToken cfg st t rest).core.tag = st.core.tag := by
  cases t with
  | tag content => exact absurd rfl (h content)
  | chr c cont =>
    rw [processToken]
    split_ifs
    · exact emit_char_color_tag cfg st
    · rfl
  | emo u => exact emit_char_color_tag cfg st
  | ucp cp => exact emit_char_color_tag cfg st
  | escBr c => rfl
  | escCol => rfl

theorem emitLoop_nil (cfg : Config) (f : Nat) (st : EmitState) :
    emitLoop cfg f [] st = st := by
  cases f <;> rfl

theorem emitLoop_fuel (cfg : Config) :
    ∀ f1, ∀ {p : List Nat} {st : EmitState} {f2 : Nat},
      p.length ≤ f1 → p.length ≤ f2 → emitLoop cfg f1 p st = emitLoop cfg f2 p st := by
  intro f1
  induction f1 using Nat.strong_induction_on with
  | _ f1 ih =>
    intro p st f2 h1 h2
    match f1 with
    | 0 =>
      have hp : p = [] := List.length_eq_zero.mp (by omega)
      subst hp
      rw [emitLoop_nil, emitLoop_nil]
    | f1 + 1 =>
      match f2 with
      | 0 =>
        have hp : p = [] := List.length_eq_zero.mp (by omega)
        subst hp
        rw [emitLoop_nil, emitLoop_nil]
      | f2 + 1 =>
        rw [emitLoop, emitLoop]
        cases hn : next_markup_token p with
        | none => rfl
        | some tr =>
          obtain ⟨t, r⟩ := tr
          have hlt := next_token_shrinks hn
          dsimp only
          exact ih f1 (by omega) (by omega) (by omega)

theorem mem_of_mem_dropWhile {f : Nat → Bool} {l : List Nat} {x : Nat}
    (h : x ∈ l.dropWhile f) : x ∈ l := by
  induction l with
  | nil => simp [List.dropWhile] at h
  | cons y ys ih =>
    rw [List.dropWhile_cons] at h
    split_ifs at h
    · exact List.mem_cons_of_mem _ (ih h)
    · exact h

theorem dropWhile_append_boundary {f : Nat → Bool} {a bdy : List Nat}
    (hb : bdy = [] ∨ ∃ h0 r0, bdy = h0 :: r0 ∧ f h0 = false) :
    (a ++ bdy).dropWhile f = a.dropWhile f ++ bdy := by
  induction a with
  | nil =>
    rcases hb with rfl | ⟨h0, r0, rfl, hf⟩
    · rfl
    · simp [List.dropWhile_cons, hf]
  | cons x xs ih =>
    rw [List.cons_append, List.dropWhile_cons, List.dropWhile_cons]
    split_ifs
    · exact ih
    · rfl

theorem takeWhile_append_boundary {f : Nat → Bool} {a bdy : List Nat}
    (hb : bdy = [] ∨ ∃ h0 r0, bdy = h0 :: r0 ∧ f h0 = false) :
    (a ++ bdy).takeWhile f = a.takeWhile f := by
  induction a with
  | nil =>
    rcases hb with rfl | ⟨h0, r0, rfl, hf⟩
    · rfl
    · simp [List.takeWhile_cons, hf]
  | cons x xs ih =>
    rw [List.cons_append, List.takeWhile_cons, List.takeWhile_cons]
    split_ifs
    · rw [ih]
    · rfl

/-- Head condition on the text that follows a markup-free run: empty, or a
byte that is not a UTF-8 continuation byte and not `]`. -/
def headBoundaryOK (bdy : List Nat) : Prop :=
  bdy = [] ∨ ∃ h0 r0, bdy = h0 :: r0 ∧ isCont h0 = false ∧ h0 ≠ 93

/-- Stepping the tokenizer inside a `[`-free and `:`-free run never produces
a tag token, stays inside the run, and consumes at least one byte. -/
theorem next_plain_step {a bdy : List Nat} (h91 : 91 ∉ a) (h58 : 58 ∉ a)
    (hne : a ≠ []) (hb : headBoundaryOK bdy) :
    ∃ t a3, next_markup_token (a ++ bdy) = some (t, a3 ++ bdy) ∧
      (∀ content, t ≠ MarkupToken.tag content) ∧
      (∀ x ∈ a3, x ∈ a) ∧ a3.length < a.length := by
  match a with
  | [] => exact absurd rfl hne
  | x :: a2 =>
    have hx91 : ¬ x = 91 := fun h => h91 (h ▸ List.mem_cons_self ..)
    have hx58 : ¬ x = 58 := fun h => h58 (h ▸ List.mem_cons_self ..)
    have hbdrop : (a2 ++ bdy).dropWhile isCont = a2.dropWhile isCont ++ bdy := by
      apply dropWhile_append_boundary
      rcases hb with rfl | ⟨h0, r0, rfl, hc, h93⟩
      · exact Or.inl rfl
      · exact Or.inr ⟨h0, r0, rfl, hc⟩
    by_cases hpair : x = 93 ∧ (a2 ++ bdy).head? = some 93
    · obtain ⟨hx, hhd⟩ := hpair
      match a2 with
      | [] =>
        exfalso
        rcases hb with rfl | ⟨h0, r0, rfl, hc, h93⟩
        · simp at hhd
        · simp only [List.nil_append, List.head?_cons, Option.some.injEq] at hhd
          exact h93 hhd
      | y :: a3 =>
        have hy : y = 93 := by
          simpa using hhd
        refine ⟨.escBr 93, a3, ?_, by intro c h; exact absurd h (by simp), ?_, ?_⟩
        · rw [List.cons_append, next_markup_token,
            if_neg (by intro hcc; exact hx91 hcc.1),
            if_pos ⟨hx, by simp [hy]⟩]
          simp
        · intro z hz
          exact List.mem_cons_of_mem _ (List.mem_cons_of_mem _ hz)
        · simp only [List.length_cons]
          omega
    · refine ⟨.chr x ((a2 ++ bdy).takeWhile isCont), a2.dropWhile isCont, ?_, ?_, ?_, ?_⟩
      · rw [List.cons_append, next_markup_token,
          if_neg (by intro hcc; exact hx91 hcc.1),
          if_neg hpair,
          if_neg (by intro hcc; exact hx58 hcc.1),
          if_neg hx91, if_neg hx58, charTok, hbdrop]
      · intro c h
        exact absurd h (by simp)
      · intro z hz
        exact List.mem_cons_of_mem _ (mem_of_mem_dropWhile hz)
      · have := dropWhile_length_le isCont a2
        simp only [List.length_cons]
        omega

/-- Running the emitter over a markup-free run followed by further input
reaches the further input with the tag state untouched. -/
theorem emitLoop_plain_run (cfg : Config) :
    ∀ fuel {a bdy : List Nat} {st : EmitState},
      (a ++ bdy).length ≤ fuel → 91 ∉ a → 58 ∉ a → headBoundaryOK bdy →
      ∃ st2, emitLoop cfg fuel (a ++ bdy) st = emitLoop cfg bdy.length bdy st2 ∧
        st2.core.tag = st.core.tag := by
  intro fuel
  induction fuel using Nat.strong_induction_on with
  | _ fuel ih =>
    intro a bdy st hlen h91 h58 hb
    match a with
    | [] =>
      refine ⟨st, ?_, rfl⟩
      rw [List.nil_append] at hlen ⊢
      exact emitLoop_fuel cfg fuel hlen le_rfl
    | x :: a2 =>
      obtain ⟨t, a3, hnext, hnt, hsub, hlt⟩ :=
        next_plain_step h91 h58 (by simp) hb
      match fuel with
      | 0 =>
        exfalso
        simp only [List.length_append, List.length_cons] at hlen
        omega
      | fuel + 1 =>
        rw [emitLoop, hnext]
        dsimp only
        have hlen3 : (a3 ++ bdy).length ≤ fuel := by
          simp only [List.length_append, List.length_cons] at hlen
          simp only [List.length_cons] at hlt
          simp only [List.length_append]
          omega
        obtain ⟨st2, heq, htag⟩ := @ih fuel (by omega) a3 bdy
          (processToken cfg st t (a3 ++ bdy))
          hlen3 (fun hm => h91 (hsub _ hm)) (fun hm => h58 (hsub _ hm)) hb
        exact ⟨st2, heq,
          htag.trans (processToken_nonTag_tag cfg st t (a3 ++ bdy) hnt)⟩

/- ------------------------------------------------------------------ -/
/- C5: :U-XXXX: codepoint escapes                                     -/
/- ------------------------------------------------------------------ -/

/-- Is a byte an ASCII hex digit (as `try_parse_unicode` accepts them)? -/
def isHexDigitB (c : Nat) : Bool := (hexNibble c).isSome

/-- Value of a hex digit run, accumulated like `try_parse_unicode`'s loop. -/
def hexValFrom : Nat → List Nat → Nat
  | acc, [] => acc
  | acc, c :: cs => hexValFrom (acc * 16 + (hexNibble c).getD 0) cs

theorem parseHexLoop_some_iff {h : List Nat} {acc cp : Nat} :
    parseHexLoop h acc = some cp ↔
      ((∀ c ∈ h, isHexDigitB c = true) ∧ cp = hexValFrom acc h ∧ cp ≠ 0 ∧
       cp ≤ 0x10FFFF ∧ ¬ (0xD800 ≤ cp ∧ cp ≤ 0xDFFF)) := by
  induction h generalizing acc with
  | nil =>
    rw [parseHexLoop]
    constructor
    · intro hp
      split_ifs at hp with h1 h2
      injection hp with hp
      push_neg at h1
      refine ⟨by simp, ?_, ?_, ?_, ?_⟩
      · rw [hexValFrom]
        omega
      · omega
      · omega
      · omega
    · rintro ⟨-, hcp, h0, hle, hsur⟩
      rw [hexValFrom] at hcp
      subst hcp
      rw [if_neg (by push_neg; exact ⟨h0, hle⟩), if_neg hsur]
  | cons c cs ih =>
    rw [parseHexLoop]
    cases hnb : hexNibble c with
    | none =>
      simp only [reduceCtorEq, false_iff]
      rintro ⟨hall, -⟩
      have := hall c (by simp)
      rw [isHexDigitB, hnb] at this
      simp at this
    | some n =>
      rw [ih]
      constructor
      · rintro ⟨hall, hcp, h0, hle, hsur⟩
        refine ⟨?_, ?_, h0, hle, hsur⟩
        · intro z hz
          rcases List.mem_cons.mp hz with rfl | hz2
          · rw [isHexDigitB, hnb]
            rfl
          · exact hall z hz2
        · rw [hexValFrom, hnb]
          simpa using hcp
      · rintro ⟨hall, hcp, h0, hle, hsur⟩
        refine ⟨fun z hz => hall z (List.mem_cons_of_mem _ hz), ?_, h0, hle, hsur⟩
        rw [hexValFrom, hnb] at hcp
        simpa using hcp

theorem try_parse_unicode_iff (s : List Nat) (cp : Nat) :
    try_parse_unicode s = some cp ↔
      ∃ h, s = 85 :: 45 :: h ∧ 1 ≤ h.length ∧ h.length ≤ 6 ∧
        (∀ c ∈ h, isHexDigitB c = true) ∧ cp = hexValFrom 0 h ∧ cp ≠ 0 ∧
        cp ≤ 0x10FFFF ∧ ¬ (0xD800 ≤ cp ∧ cp ≤ 0xDFFF) := by
  constructor
  · intro hp
    rcases s with _ | ⟨u, s1⟩
    · exact absurd hp (by rw [show try_parse_unicode [] = none from rfl]; simp)
    · rcases s1 with _ | ⟨d, rest⟩
      · exact absurd hp (by rw [show try_parse_unicode [u] = none from rfl]; simp)
      · rw [try_parse_unicode] at hp
        split_ifs at hp with hlen hud
        rw [parseHexLoop_some_iff] at hp
        obtain ⟨hall, hcp, h0, hle, hsur⟩ := hp
        obtain ⟨rfl, rfl⟩ := hud
        simp only [List.length_cons, not_or, not_lt] at hlen
        exact ⟨rest, rfl, by omega, by omega, hall, hcp, h0, hle, hsur⟩
  · rintro ⟨h, rfl, h1, h6, hall, hcp, h0, hle, hsur⟩
    rw [try_parse_unicode,
      if_neg (by simp only [List.length_cons, not_or, not_lt]; omega),
      if_pos ⟨rfl, rfl⟩, parseHexLoop_some_iff]
    exact ⟨hall, hcp, h0, hle, hsur⟩

/-- When no gradient/rainbow bit is set, `emit_char_color` is the identity. -/
theorem emit_char_color_noeffect (cfg : Config) (st : EmitState)
    (h : st.core.tag.styles = 0) : emit_char_color cfg st = st := by
  rw [emit_char_color, h]
  simp

/-- With no active effect, a plain-character token only appends its bytes. -/
theorem processToken_chr_out (cfg : Config) (st : EmitState) (c : Nat)
    (cont rest : List Nat) (h : st.core.tag.styles = 0) :
    processToken cfg st (.chr c cont) rest = { st with out := st.out ++ c :: cont } := by
  rw [processToken]
  rw [emit_char_color_noeffect cfg st h, ite_self]

theorem idxOfByte_append_self {c : Nat} {a : List Nat} (h : c ∉ a) (r : List Nat) :
    idxOfByte c (a ++ c :: r) = some a.length := by
  induction a with
  | nil => rw [List.nil_append, idxOfByte, if_pos rfl]; rfl
  | cons x xs ih =>
    rw [List.cons_append, idxOfByte,
      if_neg (fun hx : x = c => h (hx ▸ List.mem_cons_self ..)),
      ih (fun hm => h (List.mem_cons_of_mem _ hm))]
    rfl

set_option maxRecDepth 4000 in
/-- No emoji shortcode in the table starts with `U-`, so an emoji lookup on a
codepoint-escape body always fails. -/
theorem lookup_emoji_U_dash (h : List Nat) : lookup_emoji (85 :: 45 :: h) = none := by
  rw [lookup_emoji, emojiFind_none]
  intro e he hname
  have htab : ∀ e ∈ EMOJIS, e.name.take 2 ≠ [85, 45] := by decide
  exact htab e he (by rw [hname]; rfl)

/-- Running the emitter over a markup-free run (no `[`, `:` or `]`) with no
active effect copies the run to the output verbatim. -/
theorem emitLoop_verbatim (cfg : Config) :
    ∀ fuel {a bdy : List Nat} {st : EmitState},
      (a ++ bdy).length ≤ fuel → 91 ∉ a → 58 ∉ a → 93 ∉ a →
      st.core.tag.styles = 0 → headBoundaryOK bdy →
      emitLoop cfg fuel (a ++ bdy) st =
        emitLoop cfg bdy.length bdy { st with out := st.out ++ a } := by
  intro fuel
  induction fuel using Nat.strong_induction_on with
  | _ fuel ih =>
    intro a bdy st hlen h91 h58 h93 hsty hb
    match a with
    | [] =>
      rw [List.nil_append] at hlen ⊢
      rw [List.append_nil]
      exact emitLoop_fuel cfg fuel hlen le_rfl
    | x :: a2 =>
      have hx91 : ¬ x = 91 := fun h => h91 (h ▸ List.mem_cons_self ..)
      have hx58 : ¬ x = 58 := fun h => h58 (h ▸ List.mem_cons_self ..)
      have hx93 : ¬ x = 93 := fun h => h93 (h ▸ List.mem_cons_self ..)
      have hbdry : bdy = [] ∨ ∃ h0 r0, bdy = h0 :: r0 ∧ isCont h0 = false := by
        rcases hb with rfl | ⟨h0, r0, rfl, hc, _⟩
        · exact Or.inl rfl
        · exact Or.inr ⟨h0, r0, rfl, hc⟩
      have htake : (a2 ++ bdy).takeWhile isCont = a2.takeWhile isCont :=
        takeWhile_append_boundary hbdry
      have hdrop : (a2 ++ bdy).dropWhile isCont = a2.dropWhile isCont ++ bdy :=
        dropWhile_append_boundary hbdry
      have hnext : next_markup_token ((x :: a2) ++ bdy) =
          some (.chr x (a2.takeWhile isCont), a2.dropWhile isCont ++ bdy) := by
        rw [List.cons_append, next_markup_token,
          if_neg (by intro hcc; exact hx91 hcc.1),
          if_neg (by intro hcc; exact hx93 hcc.1),
          if_neg (by intro hcc; exact hx58 hcc.1),
          if_neg hx91, if_neg hx58, charTok, htake, hdrop]
      match fuel with
      | 0 =>
        exfalso
        simp only [List.cons_append, List.length_cons] at hlen
        omega
      | fuel + 1 =>
        rw [emitLoop, hnext]
        dsimp only
        rw [processToken_chr_out cfg st x (a2.takeWhile isCont)
          (a2.dropWhile isCont ++ bdy) hsty]
        have hlen2 : (a2.dropWhile isCont ++ bdy).length ≤ fuel := by
          have := dropWhile_length_le isCont a2
          simp only [List.cons_append, List.length_cons, List.length_append] at hlen
          simp only [List.length_append]
          omega
        have hrec : emitLoop cfg fuel (a2.dropWhile isCont ++ bdy)
              { st with out := st.out ++ x :: a2.takeWhile isCont } =
            emitLoop cfg bdy.length bdy
              { st with out :=
                  (st.out ++ x :: a2.takeWhile isCont) ++ a2.dropWhile isCont } :=
          ih fuel (Nat.lt_succ_self fuel) hlen2
            (fun hm => h91 (List.mem_cons_of_mem _ (mem_of_mem_dropWhile hm)))
            (fun hm => h58 (List.mem_cons_of_mem _ (mem_of_mem_dropWhile hm)))
            (fun hm => h93 (List.mem_cons_of_mem _ (mem_of_mem_dropWhile hm)))
            hsty hb
        rw [hrec]
        congr 2
        simp only [List.append_assoc, List.cons_append, List.takeWhile_append_dropWhile]

/-- A single trailing `:` byte with no active effect appends itself. -/
theorem emitLoop_colon (cfg : Config) (st : EmitState)
    (h : st.core.tag.styles = 0) :
    emitLoop cfg 1 [58] st = { st with out := st.out ++ [58] } := by
  rw [show (1 : Nat) = 0 + 1 from rfl, emitLoop,
    (by decide : next_markup_token [58] = some (MarkupToken.chr 58 [], []))]
  dsimp only
  rw [processToken_chr_out cfg st 58 [] [] h]
  rfl


/-- C5: a `:U-...:` codepoint escape parses iff the hex part has 1-6 hex
digits (case-insensitive) and the value is nonzero, at most 0x10FFFF and not
a surrogate; and when parsing fails, the whole `:U-...:` span passes through
to the output as literal text unchanged, provided the span body contains no
further markup bytes (`[`, `:` or `]`) — a failed span containing such bytes
is re-tokenized instead (see the counterexample). -/
theorem codepoint_escape_spec :
    (∀ s cp, try_parse_unicode s = some cp ↔
      ∃ h, s = 85 :: 45 :: h ∧ 1 ≤ h.length ∧ h.length ≤ 6 ∧
        (∀ c ∈ h, isHexDigitB c = true) ∧ cp = hexValFrom 0 h ∧ cp ≠ 0 ∧
        cp ≤ 0x10FFFF ∧ ¬ (0xD800 ≤ cp ∧ cp ≤ 0xDFFF)) ∧
    (∀ cfg : Config, ∀ h : List Nat, 91 ∉ h → 58 ∉ h → 93 ∉ h →
      try_parse_unicode (85 :: 45 :: h) = none →
      (ansi_emit cfg ((58 :: 85 :: 45 :: h) ++ [58])).out =
        (58 :: 85 :: 45 :: h) ++ [58]) := by
  constructor
  · exact fun s cp => try_parse_unicode_iff s cp
  · intro cfg h h91 h58 h93 hfail
    have hnmem : 58 ∉ (85 :: 45 :: h) := by simp [List.mem_cons, h58]
    have h91c : 91 ∉ ((85 : Nat) :: 45 :: h) := by simp [List.mem_cons, h91]
    have h58c : 58 ∉ ((85 : Nat) :: 45 :: h) := by simp [List.mem_cons, h58]
    have h93c : 93 ∉ ((85 : Nat) :: 45 :: h) := by simp [List.mem_cons, h93]
    have hbok : headBoundaryOK [58] := Or.inr ⟨58, [], rfl, by decide, by decide⟩
    have hnext0 : next_markup_token ((58 :: 85 :: 45 :: h) ++ [58]) =
        some (.chr 58 [], (85 :: 45 :: h) ++ [58]) := by
      rw [List.cons_append, next_markup_token,
        if_neg (by simp),
        if_neg (by simp),
        if_neg (by simp),
        if_neg (by decide),
        if_pos rfl, idxOfByte_append_self hnmem []]
      dsimp only
      rw [if_pos (by simp only [List.length_cons]; omega), List.take_left,
        lookup_emoji_U_dash, hfail, charTok, List.cons_append,
        List.takeWhile_cons_of_neg (by decide),
        List.dropWhile_cons_of_neg (by decide)]
    have hplen : (((58 : Nat) :: 85 :: 45 :: h) ++ [58]).length = h.length + 3 + 1 := by
      simp only [List.length_append, List.length_cons, List.length_nil]
    have hstep1 : emitLoop cfg (h.length + 3 + 1) ((58 :: 85 :: 45 :: h) ++ [58])
          initState =
        emitLoop cfg (h.length + 3) ((85 :: 45 :: h) ++ [58])
          { initState with out := initState.out ++ [58] } := by
      rw [emitLoop, hnext0]
      dsimp only
      rw [processToken_chr_out cfg initState 58 [] ((85 :: 45 :: h) ++ [58]) rfl]
    have hstep2 : emitLoop cfg (h.length + 3) ((85 :: 45 :: h) ++ [58])
          { initState with out := initState.out ++ [58] } =
        emitLoop cfg ([58] : List Nat).length [58]
          { initState with out := 58 :: 85 :: 45 :: h } := by
      have h2 := emitLoop_verbatim cfg (h.length + 3)
        (by simp only [List.length_append, List.length_cons, List.length_nil]
            omega :
          (((85 : Nat) :: 45 :: h) ++ [58]).length ≤ h.length + 3)
        h91c h58c h93c
        (rfl :
          ({ initState with out := initState.out ++ [58] } : EmitState).core.tag.styles = 0)
        hbok
      exact h2
    have hstep3 : emitLoop cfg ([58] : List Nat).length [58]
          { initState with out := 58 :: 85 :: 45 :: h } =
        { initState with out := (58 :: 85 :: 45 :: h) ++ [58] } := by
      have h2 := emitLoop_colon cfg { initState with out := 58 :: 85 :: 45 :: h } rfl
      exact h2
    rw [ansi_emit, hplen, hstep1, hstep2, hstep3,
      if_neg (fun hc => by rcases hc.2 with hh | hh | hh <;> exact hh rfl)]

theorem codepoint_escape_spec_witness :
    91 ∉ b "GG" ∧ 58 ∉ b "GG" ∧ 93 ∉ b "GG" ∧
      try_parse_unicode (85 :: 45 :: b "GG") = none ∧
      (ansi_emit ⟨true, none, none⟩ ((58 :: 85 :: 45 :: b "GG") ++ [58])).out =
        (58 :: 85 :: 45 :: b "GG") ++ [58] :=
  ⟨by decide, by decide, by decide, by decide,
    codepoint_escape_spec.2 ⟨true, none, none⟩ (b "GG") (by decide) (by decide)
      (by decide) (by decide)⟩

/-- The pass-through half of the spec sentence is false without the
no-markup-bytes proviso: `:U-[red]:` fails to parse (`[` is not a hex
digit), but the failed span is re-tokenized, so `[red]` acts as a color
tag and the output is not the literal input text. -/
theorem codepoint_escape_passthrough_cex :
    try_parse_unicode (85 :: 45 :: b "[red]") = none ∧
    (ansi_emit ⟨true, none, none⟩ (b ":U-[red]:")).out ≠ b ":U-[red]:" ∧
    (ansi_emit ⟨true, none, none⟩ (b ":U-[red]:")).out =
      b ":U-" ++ esc "[31m" ++ b ":" ++ RESET := by
  refine ⟨by decide, ?_, by decide⟩
  decide

/- ------------------------------------------------------------------ -/
/- C1: single-attribute round trip and the call-start baseline        -/
/- ------------------------------------------------------------------ -/

theorem drop_len_succ (a : List Nat) (c : Nat) (r : List Nat) :
    (a ++ c :: r).drop (a.length + 1) = r := by
  induction a with
  | nil => rfl
  | cons x xs ih =>
    rw [List.cons_append, List.length_cons, List.drop_succ_cons]
    exact ih

/-- The tag-state component of `emit_close_tag` as a pure function of the
configuration, the incoming tag state and the tag bytes (read off the
branches of `emit_close_tag`). -/
def closeTagState (cfg : Config) (t : TagState) (tag : List Nat) : TagState :=
  if tag = [] then { fg := cfg.defaultFg, bg := cfg.defaultBg, styles := 0 }
  else if 8 ≤ tag.length ∧ tag.take 8 = b "gradient" ∧
      (tag.length = 8 ∨ tag[8]? = some 32) then
    { t with styles := t.styles &&& (255 ^^^ 128) }
  else if tag = b "rainbow" then
    { t with styles := t.styles &&& (255 ^^^ 64) }
  else closeWordsTag cfg t tag

theorem emit_close_tag_tag (cfg : Config) (st : EmitState) (tag : List Nat) :
    (emit_close_tag cfg st tag).core.tag = closeTagState cfg st.core.tag tag := by
  rw [emit_close_tag, closeTagState]
  split_ifs <;> rfl

theorem emit_tag_close_tag (cfg : Config) (st : EmitState) (name : List Nat) :
    (emit_tag cfg st (47 :: name)).core.tag =
      if cfg.colorEnabled then closeTagState cfg st.core.tag name
      else st.core.tag := by
  by_cases hen : cfg.colorEnabled
  · rw [emit_tag, if_neg (by simp [hen]),
      if_pos (show (47 :: name).head? = some 47 from rfl), if_pos hen]
    exact emit_close_tag_tag cfg st ((47 :: name).drop 1)
  · rw [emit_tag, if_pos (Or.inl hen), if_neg hen]

/-- The pre-scan performed after a tag token never changes the tag state. -/
theorem processToken_tag_tag (cfg : Config) (st : EmitState)
    (content rest : List Nat) :
    (processToken cfg st (.tag content) rest).core.tag =
      (emit_tag cfg st content).core.tag := by
  rw [processToken]
  split_ifs <;> rfl

theorem ansi_emit_tag_eq (cfg : Config) (p : List Nat) :
    (ansi_emit cfg p).core.tag = (emitLoop cfg p.length p initState).core.tag := by
  rw [ansi_emit]
  split_ifs <;> rfl

/-- One loop iteration of `ansi_emit`, with the fuel realigned to the
length of the remaining input. -/
theorem emitLoop_step (cfg : Config) {p r : List Nat} {t : MarkupToken}
    (st : EmitState) (hn : next_markup_token p = some (t, r)) :
    emitLoop cfg p.length p st = emitLoop cfg r.length r (processToken cfg st t r) := by
  have hlt := next_token_shrinks hn
  rw [emitLoop_fuel cfg p.length le_rfl (by omega : p.length ≤ (p.length - 1) + 1),
    emitLoop, hn]
  exact emitLoop_fuel cfg (p.length - 1) (by omega) le_rfl

/-- Running the emitter over a `[`-free and `:`-free run never changes the
tag state. -/
theorem emitLoop_plain_tag (cfg : Config) :
    ∀ fuel, ∀ {a : List Nat} {st : EmitState}, a.length ≤ fuel → 91 ∉ a → 58 ∉ a →
      (emitLoop cfg fuel a st).core.tag = st.core.tag := by
  intro fuel
  induction fuel using Nat.strong_induction_on with
  | _ fuel ih =>
    intro a st hlen h91 h58
    match a with
    | [] => rw [emitLoop_nil]
    | x :: a2 =>
      obtain ⟨t, a3, hnext, hnt, hsub, hlt⟩ :=
        next_plain_step h91 h58 (by simp) (Or.inl rfl)
      simp only [List.append_nil] at hnext
      match fuel with
      | 0 =>
        exfalso
        simp only [List.length_cons] at hlen
        omega
      | fuel + 1 =>
        rw [emitLoop, hnext]
        dsimp only
        rw [ih fuel (Nat.lt_succ_self fuel)
          (by simp only [List.length_cons] at hlen hlt; omega)
          (fun hm => h91 (hsub _ hm)) (fun hm => h58 (hsub _ hm)),
          processToken_nonTag_tag cfg st t a3 hnt]

/-- The tag state at the end of a `[X]text[/X]trail` emission, traced
through the token loop: the open tag fires on the cleared call-start
state, plain text never touches the tag state, and the close tag maps the
post-open tag state through `closeTagState` (when color is enabled; with
color disabled tags are no-ops). -/
theorem roundtrip_core (cfg : Config) (e : AttrEntry) (text trail : List Nat)
    (hne : e.name ≠ []) (h93n : 93 ∉ e.name) (hh91 : e.name.head? ≠ some 91)
    (h91t : 91 ∉ text) (h58t : 58 ∉ text) (h91r : 91 ∉ trail) (h58r : 58 ∉ trail) :
    (ansi_emit cfg
        (91 :: (e.name ++ 93 :: (text ++ 91 :: 47 :: (e.name ++ 93 :: trail))))).core.tag =
      if cfg.colorEnabled then
        closeTagState cfg (emit_tag cfg initState e.name).core.tag e.name
      else (emit_tag cfg initState e.name).core.tag := by
  obtain ⟨n0, nrest, hname⟩ := List.exists_cons_of_ne_nil hne
  have hn91 : n0 ≠ 91 := fun hcc => hh91 (by rw [hname, hcc]; rfl)
  have hnextOpen : next_markup_token
      (91 :: (e.name ++ 93 :: (text ++ 91 :: 47 :: (e.name ++ 93 :: trail)))) =
      some (.tag e.name, text ++ 91 :: 47 :: (e.name ++ 93 :: trail)) := by
    rw [next_markup_token,
      if_neg (by
        rintro ⟨-, hh⟩
        rw [hname, List.cons_append, List.head?_cons] at hh
        exact hn91 (Option.some.inj hh)),
      if_neg (by rintro ⟨hcc, -⟩; exact absurd hcc (by decide)),
      if_neg (by rintro ⟨hcc, -⟩; exact absurd hcc (by decide)),
      if_pos rfl,
      idxOfByte_append_self h93n _]
    dsimp only
    rw [List.take_left, drop_len_succ]
  have hnextClose : next_markup_token (91 :: 47 :: (e.name ++ 93 :: trail)) =
      some (.tag (47 :: e.name), trail) := by
    rw [next_markup_token,
      if_neg (by simp),
      if_neg (by simp),
      if_neg (by simp),
      if_pos rfl, idxOfByte, if_neg (by decide),
      idxOfByte_append_self h93n trail]
    dsimp only [Option.map]
    rw [List.take_succ_cons, List.take_left, List.drop_succ_cons, drop_len_succ]
  obtain ⟨st2, heq2, htag2⟩ := @emitLoop_plain_run cfg
    (text ++ 91 :: 47 :: (e.name ++ 93 :: trail)).length
    text (91 :: 47 :: (e.name ++ 93 :: trail))
    (processToken cfg initState (.tag e.name)
      (text ++ 91 :: 47 :: (e.name ++ 93 :: trail)))
    le_rfl h91t h58t (Or.inr ⟨91, 47 :: (e.name ++ 93 :: trail), rfl, by decide, by decide⟩)
  rw [ansi_emit_tag_eq,
    emitLoop_step cfg initState hnextOpen,
    heq2,
    emitLoop_step cfg st2 hnextClose,
    emitLoop_plain_tag cfg trail.length le_rfl h91r h58r,
    processToken_tag_tag, emit_tag_close_tag, htag2, processToken_tag_tag]

/-- C1: with the process-wide defaults unset (the state `ansi_emit`
actually installs at call start is fg NULL / bg NULL / styles 0 regardless
of the defaults — see the counterexample for set defaults), emitting
`[X]text[/X]trail` for any recognized attribute X and any plain text and
trail (no `[` or `:` bytes) leaves the final tag state equal to that
cleared call-start baseline. -/
theorem single_attr_roundtrip :
    initState.core.tag = { fg := none, bg := none, styles := 0 } ∧
    ∀ en : Bool, ∀ e ∈ ATTRS, ∀ text trail : List Nat,
      91 ∉ text → 58 ∉ text → 91 ∉ trail → 58 ∉ trail →
      (ansi_emit ⟨en, none, none⟩
          (91 :: (e.name ++ 93 :: (text ++ 91 :: 47 :: (e.name ++ 93 :: trail))))).core.tag =
        { fg := none, bg := none, styles := 0 } := by
  refine ⟨rfl, ?_⟩
  intro en e he text trail h91t h58t h91r h58r
  have hne : e.name ≠ [] := by
    have hx : ∀ x ∈ ATTRS, x.name ≠ [] := by decide
    exact hx e he
  have h93n : 93 ∉ e.name := by
    have hx : ∀ x ∈ ATTRS, 93 ∉ x.name := by decide
    exact hx e he
  have hh91 : e.name.head? ≠ some 91 := by
    have hx : ∀ x ∈ ATTRS, x.name.head? ≠ some 91 := by decide
    exact hx e he
  rw [roundtrip_core ⟨en, none, none⟩ e text trail hne h93n hh91 h91t h58t h91r h58r]
  cases en
  · rw [if_neg (by decide)]
    have hF : ∀ x ∈ ATTRS, (emit_tag ⟨false, none, none⟩ initState x.name).core.tag =
        { fg := none, bg := none, styles := 0 } := by decide
    exact hF e he
  · rw [if_pos (by decide)]
    have hT : ∀ x ∈ ATTRS,
        closeTagState ⟨true, none, none⟩
            ((emit_tag ⟨true, none, none⟩ initState x.name).core.tag) x.name =
          { fg := none, bg := none, styles := 0 } := by decide
    exact hT e he

theorem single_attr_roundtrip_witness :
    (⟨[114, 101, 100], some [27, 91, 51, 49, 109], some [27, 91, 52, 49, 109], 0,
        ⟨255, 0, 0⟩⟩ : AttrEntry) ∈ ATTRS ∧
    91 ∉ b "hi" ∧ 58 ∉ b "hi" ∧ 91 ∉ b "ok" ∧ 58 ∉ b "ok" ∧
    (ansi_emit ⟨true, none, none⟩
        (91 :: ([114, 101, 100] ++ 93 ::
          (b "hi" ++ 91 :: 47 :: ([114, 101, 100] ++ 93 :: b "ok"))))).core.tag =
      { fg := none, bg := none, styles := 0 } :=
  ⟨by decide, by decide, by decide, by decide, by decide,
    single_attr_roundtrip.2 true
      ⟨[114, 101, 100], some [27, 91, 51, 49, 109], some [27, 91, 52, 49, 109], 0,
        ⟨255, 0, 0⟩⟩
      (by decide) (b "hi") (b "ok") (by decide) (by decide) (by decide) (by decide)⟩

/-- The second half of the claim fails when a process-wide default is set:
`ansi_emit` clears the tag state to NULL/NULL/0 at call start (it does not
install the defaults), so after `[bold]a[/bold]b` the active foreground is
`none` although the process default foreground is `ATTRS[1]` (red). -/
theorem call_start_baseline_cex :
    (ansi_emit ⟨true, some (.attr 1), none⟩ (b "[bold]a[/bold]b")).core.tag.fg = none ∧
    (some (FgRef.attr 1) : Option FgRef) ≠ none := by
  exact ⟨by decide, by decide⟩
